import Mathlib

/-!
Verification development for the ALE-OmniSwitch-MCP tool-execution service.

The Python sources under `aos_server/` are shallowly embedded below: strings
are `List Char`, byte streams are `List Nat`, fallible Python operations
(`int(...)`, list indexing, pydantic model construction, raised exceptions)
are `Except PyExc`, and the regular expressions that appear in the sources are
implemented as deterministic character-list matchers that follow Python `re`
semantics for those concrete patterns (the patterns only combine literals and
character-class runs over disjoint alphabets, so greedy matching with
backtracking degenerates to maximal-run scanning; this is noted per matcher
where it is used).
-/

namespace AOS

/-- Python exception values that the embedded code can raise.  Pydantic's
`ValidationError` is a subclass of `ValueError` in Python, so it is embedded
as a `valueError` here (this is what `main.py`'s `except ValueError` relies
on). -/
inductive PyExc where
  | valueError (msg : List Char)
  | keyError (msg : List Char)
  | permissionError (msg : List Char)
  | sshExecutionError (msg : List Char)
  | indexError
  deriving Repr, DecidableEq

/-- ASCII whitespace as recognised by Python's `str.strip` and by `\s` in
`re` patterns (the device strings handled here are ASCII): space, tab,
newline, carriage return, vertical tab, form feed. -/
def isPyWs (c : Char) : Bool :=
  c.toNat = 32 || c.toNat = 9 || c.toNat = 10 || c.toNat = 13 ||
  c.toNat = 11 || c.toNat = 12

/-- ASCII decimal digit, as matched by `\d` on ASCII input. -/
def isDigitC (c : Char) : Bool :=
  48 ≤ c.toNat && c.toNat ≤ 57

/-- Python `str.strip()` on a character list. -/
def pyStrip (s : List Char) : List Char :=
  ((s.dropWhile isPyWs).reverse.dropWhile isPyWs).reverse

/-- Numeric value of a decimal digit string (the behaviour of Python `int`
on a nonempty all-digit string, the only shape it is given below). -/
def natValue (s : List Char) : Nat :=
  s.foldl (fun acc c => acc * 10 + (c.toNat - '0'.toNat)) 0

/-- Python `int(s)` as used in the parsers: it succeeds exactly on the
nonempty all-digit strings the `(\d+)` captures produce, and raises
`ValueError` otherwise. -/
def pyInt (s : List Char) : Except PyExc Nat :=
  if s ≠ [] && s.all isDigitC then .ok (natValue s) else .error (.valueError s)

/-- Python `sub in s` substring test. -/
def containsSub (sub s : List Char) : Bool :=
  match s with
  | [] => sub.isEmpty
  | _ :: rest => sub.isPrefixOf s || containsSub sub rest

/-- Python's `str.lower` on an ASCII character (also the normalisation that
the `(?i)` regex flag applies to ASCII literals). -/
def pyLowerChar (c : Char) : Char :=
  if 65 ≤ c.toNat && c.toNat ≤ 90 then Char.ofNat (c.toNat + 32) else c

/-- Case-insensitive equality of two character lists, the effect of the
`(?i)` flag on ASCII literals. -/
def ciEq (a b : List Char) : Bool :=
  a.map pyLowerChar = b.map pyLowerChar

theorem toNat_ofNat_valid (n : Nat) (h1 : n < 55296) :
    (Char.ofNat n).toNat = n := by
  unfold Char.ofNat
  rw [dif_pos (Or.inl (by omega))]
  unfold Char.ofNatAux Char.toNat
  simp [UInt32.toNat, BitVec.toNat_ofNatLt]

theorem isPyWs_pyLowerChar (c : Char) :
    isPyWs (pyLowerChar c) = isPyWs c := by
  unfold pyLowerChar
  split
  · next h =>
    simp only [Bool.and_eq_true, decide_eq_true_eq] at h
    have hv : (Char.ofNat (c.toNat + 32)).toNat = c.toNat + 32 :=
      toNat_ofNat_valid _ (by omega)
    have l : isPyWs (Char.ofNat (c.toNat + 32)) = false := by
      simp [isPyWs, hv]
      omega
    have r : isPyWs c = false := by
      simp [isPyWs]
      omega
    rw [l, r]
  · rfl

/-! ## `policy.py` — the command policy -/

/-- `CompiledCommandPolicy` (policy.py).  The compiled `allow` / `deny`
regex objects are embedded as boolean matchers; each matcher models
`pattern.match(cmd)`, i.e. matching anchored at the start of the string. -/
structure CompiledCommandPolicy where
  allow : List (List Char → Bool)
  deny : List (List Char → Bool)
  max_command_length : Nat
  deny_multiline : Bool
  strip_ansi : Bool

/-- `sanitize_command` (policy.py lines 32-56): trim, then reject empty,
multiline (when configured), over-long, control-character, allowlist-missing
and denylisted commands, in that order; on success return the trimmed
command. -/
def sanitize_command (command : List Char) (policy : CompiledCommandPolicy) :
    Except (List Char) (List Char) :=
  if pyStrip command = [] then
    .error ("Command must be a non-empty string".data)
  else if policy.deny_multiline &&
      ((pyStrip command).contains '\n' || (pyStrip command).contains '\r') then
    .error ("Multiline commands are not allowed".data)
  else if (pyStrip command).length > policy.max_command_length then
    .error ("Command too long".data)
  else if (pyStrip command).any (fun ch => ch.toNat < 32 && ch ≠ '\t') then
    .error ("Control characters are not allowed".data)
  else if !(policy.allow.any (fun p => p (pyStrip command))) then
    .error ("Command rejected by allowlist policy".data)
  else if policy.deny.any (fun p => p (pyStrip command)) then
    .error ("Command rejected by denylist policy".data)
  else
    .ok (pyStrip command)

/-- Helper for the `$` anchor of Python `re`: `u` may contain no newline,
except possibly a single final one. -/
def dollarOk (u : List Char) : Bool :=
  !(u.contains '\n') ||
    (u.getLast? = some '\n' && !(u.dropLast.contains '\n'))

/-- Matching `\s+.*$` against `t`: at least one whitespace character, then
any non-newline characters, with `$` accepting a final newline. -/
def reWsRestTail : List Char → Bool
  | [] => false
  | c :: rest => isPyWs c && (dollarOk rest || reWsRestTail rest)

/-- `re.compile(r"^kw\s+.*$").match s` for a literal keyword `kw` — the
shape of all three default `allow_regex` entries in `config.py`. -/
def matchKwRe (kw : List Char) (s : List Char) : Bool :=
  kw.isPrefixOf s && reWsRestTail (s.drop kw.length)

/-- The compiled default command policy: `compile_policy` applied to the
`CommandPolicyConfig` defaults (`config.py` lines 154-163): allow
`^show\s+.*$`, `^ping\s+.*$`, `^traceroute\s+.*$`; no deny patterns;
`max_command_length=512`; `deny_multiline=True`; `strip_ansi=True`. -/
def defaultPolicy : CompiledCommandPolicy where
  allow := [matchKwRe ("show".data), matchKwRe ("ping".data),
            matchKwRe ("traceroute".data)]
  deny := []
  max_command_length := 512
  deny_multiline := true
  strip_ansi := true

/-! Basic facts about `sanitize_command`. -/

theorem sanitize_ok_strip (c : List Char) (p : CompiledCommandPolicy)
    (r : List Char) (h : sanitize_command c p = .ok r) : r = pyStrip c := by
  unfold sanitize_command at h
  split_ifs at h
  all_goals simp_all

theorem sanitize_ok_allow (c : List Char) (p : CompiledCommandPolicy)
    (r : List Char) (h : sanitize_command c p = .ok r) :
    p.allow.any (fun m => m r) = true := by
  unfold sanitize_command at h
  split_ifs at h
  all_goals simp_all

theorem matchKwRe_prefix (kw s : List Char) (h : matchKwRe kw s = true) :
    kw.isPrefixOf s = true := by
  unfold matchKwRe at h
  exact (Bool.and_eq_true _ _ |>.mp h).1

/-- The six rejection conditions named by the specification for
`sanitize_command`, stated on the whitespace-trimmed command: empty, too
long, control character below 0x20 other than tab, newline or carriage
return under `deny_multiline`, no allow-regex match, some deny-regex
match. -/
def sanitizeRejects (c : List Char) (p : CompiledCommandPolicy) : Prop :=
  pyStrip c = [] ∨
  (pyStrip c).length > p.max_command_length ∨
  (∃ ch ∈ pyStrip c, ch.toNat < 32 ∧ ch ≠ '\t') ∨
  (p.deny_multiline = true ∧ ('\n' ∈ pyStrip c ∨ '\r' ∈ pyStrip c)) ∨
  (∀ m ∈ p.allow, m (pyStrip c) = false) ∨
  (∃ m ∈ p.deny, m (pyStrip c) = true)

instance (c : List Char) (p : CompiledCommandPolicy) :
    Decidable (sanitizeRejects c p) := by
  unfold sanitizeRejects; infer_instance

/-- Shared characterisation of `sanitize_command`: failure is equivalent to
the disjunction of the six rejection conditions, and success returns the
trimmed command. -/
theorem sanitize_command_cases (c : List Char) (p : CompiledCommandPolicy) :
    ((∃ e, sanitize_command c p = .error e) ↔ sanitizeRejects c p) ∧
    (sanitize_command c p = .ok (pyStrip c) ∨
      ∃ e, sanitize_command c p = .error e) := by
  constructor
  · unfold sanitize_command sanitizeRejects
    split_ifs with h1 h2 h3 h4 h5 h6 <;> simp_all
    all_goals tauto
  · cases hs : sanitize_command c p with
    | ok r =>
      have hr := sanitize_ok_strip c p r hs
      subst hr
      exact .inl rfl
    | error e => exact .inr ⟨e, rfl⟩

/-- Success form of the characterisation. -/
theorem sanitize_command_ok_of_not_rejects {c : List Char}
    {p : CompiledCommandPolicy} (h : ¬ sanitizeRejects c p) :
    sanitize_command c p = .ok (pyStrip c) := by
  rcases (sanitize_command_cases c p).2 with hok | herr
  · exact hok
  · exact absurd ((sanitize_command_cases c p).1.mp herr) h

/-- C3: `sanitize_command(c, p)` fails exactly when the trimmed command is
empty, over-long, contains a control character below 0x20 other than tab,
contains a newline or carriage return while `deny_multiline` is set, matches
none of the (start-anchored) allow matchers, or matches some deny matcher;
otherwise it returns the trimmed command unchanged. -/
theorem sanitize_command_spec (c : List Char) (p : CompiledCommandPolicy) :
    ((∃ e, sanitize_command c p = .error e) ↔ sanitizeRejects c p) ∧
    (sanitize_command c p = .ok (pyStrip c) ∨
      ∃ e, sanitize_command c p = .error e) :=
  sanitize_command_cases c p

/-- Witness for C3: `show vlan` is accepted unchanged by the default policy
and `rm -rf /` is rejected by it. -/
theorem sanitize_command_spec_witness :
    sanitize_command ("show vlan".data) defaultPolicy =
      .ok (pyStrip ("show vlan".data)) ∧
    (∃ e, sanitize_command ("rm -rf /".data) defaultPolicy = .error e) := by
  have h1 := sanitize_command_spec ("show vlan".data) defaultPolicy
  have h2 := sanitize_command_spec ("rm -rf /".data) defaultPolicy
  constructor
  · rcases h1.2 with hok | he
    · exact hok
    · exact absurd (h1.1.mp he) (by decide)
  · exact h2.1.mpr (by decide)

/-! ## `ssh_runner.py` — output capping -/

/-- `SSHResult` (ssh_runner.py lines 108-114).  The decoded strings are kept
at byte granularity here: `_read_limited` caps and measures the streams in
bytes before decoding, and UTF-8 decoding with `errors="replace"` never
lengthens a byte string. -/
structure SSHResultB where
  stdout : List Nat
  stderr : List Nat
  exit_status : Option Int
  truncated : Bool
  deriving Repr, DecidableEq

/-- `_read_limited` (ssh_runner.py lines 205-215): read up to `limit + 1`
bytes from the stream, report truncation when more than `limit` bytes came
back, and keep only the first `limit` bytes. -/
def readLimited (raw : List Nat) (limit : Nat) : List Nat × Bool :=
  let data := raw.take (limit + 1)
  ((data.take limit), decide (data.length > limit))

/-- The tail of `SSHRunner.run` (ssh_runner.py lines 335-354) once
`exec_command` has produced its two streams: cap both with `_read_limited`,
set `truncated` when either stream overflowed, and return the result —
truncation itself is never an error path. -/
def sshRunRead (rawOut rawErr : List Nat) (exitStatus : Option Int)
    (maxOutputBytes : Nat) : Except PyExc SSHResultB :=
  let (out, truncatedOut) := readLimited rawOut maxOutputBytes
  let (err, truncatedErr) := readLimited rawErr maxOutputBytes
  .ok { stdout := out, stderr := err, exit_status := exitStatus,
        truncated := truncatedOut || truncatedErr }

/-- C5: every `SSHRunner.run` result has `len(stdout) ≤ max_output_bytes`
and `len(stderr) ≤ max_output_bytes`; `truncated` is true exactly when the
raw output of at least one stream exceeded `max_output_bytes`; and
truncation never makes the call fail. -/
theorem ssh_truncation_spec (rawOut rawErr : List Nat) (es : Option Int)
    (limit : Nat) :
    ∃ r, sshRunRead rawOut rawErr es limit = .ok r ∧
      r.stdout.length ≤ limit ∧ r.stderr.length ≤ limit ∧
      (r.truncated = true ↔ rawOut.length > limit ∨ rawErr.length > limit) := by
  refine ⟨_, rfl, ?_, ?_, ?_⟩ <;>
    simp [readLimited, List.take_take, List.length_take]

/-! ## `zone_auth.py` — zone extraction -/

/-- Split a leading ASCII digit run off a string (the deterministic
behaviour of a greedy `(\d+)` capture followed by a non-digit pattern
element). -/
def takeDigits (s : List Char) : List Char × List Char :=
  (s.takeWhile isDigitC, s.dropWhile isDigitC)

/-- A literal `.` in the pattern. -/
def expectDot : List Char → Option (List Char)
  | '.' :: t => some t
  | _ => none

/-- The `$` anchor of `re.match`: end of string, or a single trailing
newline. -/
def expectEnd : List Char → Option Unit
  | [] => some ()
  | ['\n'] => some ()
  | _ => none

/-- `re.match(r"^(\d+)\.(\d+)\.(\d+)\.(\d+)$", host)` (zone_auth.py line
41), returning the four digit-run captures. -/
def dottedQuadMatch (h : List Char) :
    Option (List Char × List Char × List Char × List Char) := do
  let (d1, r1) := takeDigits h
  if d1 = [] then none else
  let r1 ← expectDot r1
  let (d2, r2) := takeDigits r1
  if d2 = [] then none else
  let r2 ← expectDot r2
  let (d3, r3) := takeDigits r2
  if d3 = [] then none else
  let r3 ← expectDot r3
  let (d4, r4) := takeDigits r3
  if d4 = [] then none else
  let _ ← expectEnd r4
  some (d1, d2, d3, d4)

/-- `extract_zone_from_ip` (zone_auth.py lines 25-53): if the host is not a
dotted quad the result is `None`; otherwise all four octets must be in
0–255 (the `o < 0` side of the check is vacuous since `(\d+)` captures are
non-negative) and the second octet is the zone. -/
def extract_zone_from_ip (host : List Char) : Option Nat :=
  match dottedQuadMatch host with
  | none => none
  | some (d1, d2, d3, d4) =>
    if natValue d1 > 255 || natValue d2 > 255 || natValue d3 > 255 ||
        natValue d4 > 255 then
      none
    else
      some (natValue d2)

/-- C8 counterexample: `"999.2.3.4"` has dotted-quad form with second octet
2 ∈ [0, 255], yet `extract_zone_from_ip` yields nothing, because the code
also requires the *other* octets to be in range. -/
theorem extract_zone_counterexample :
    dottedQuadMatch ("999.2.3.4".data) =
      some ("999".data, "2".data, "3".data, "4".data) ∧
    natValue ("2".data) ≤ 255 ∧
    extract_zone_from_ip ("999.2.3.4".data) = none := by
  refine ⟨by decide, by decide, by decide⟩

/-- C8 (amended): for a dotted-quad `a.b.c.d` with *all* octets in
[0, 255] the extracted zone is `b`; for any non-dotted-quad or
out-of-range input the result is absent; and every extracted zone is at
most 255. -/
theorem extract_zone_spec (h : List Char) :
    (∀ a b c d, dottedQuadMatch h = some (a, b, c, d) →
      ((natValue a ≤ 255 ∧ natValue b ≤ 255 ∧ natValue c ≤ 255 ∧
          natValue d ≤ 255) →
        extract_zone_from_ip h = some (natValue b)) ∧
      ((255 < natValue a ∨ 255 < natValue b ∨ 255 < natValue c ∨
          255 < natValue d) →
        extract_zone_from_ip h = none)) ∧
    (dottedQuadMatch h = none → extract_zone_from_ip h = none) ∧
    (∀ z, extract_zone_from_ip h = some z → z ≤ 255) := by
  refine ⟨?_, ?_, ?_⟩
  · intro a b c d hm
    constructor <;> intro hrange <;>
      simp only [extract_zone_from_ip, hm] <;> split_ifs with hif <;>
      simp_all <;> omega
  · intro hm
    simp [extract_zone_from_ip, hm]
  · intro z hz
    unfold extract_zone_from_ip at hz
    split at hz
    · exact absurd hz (by simp)
    · split_ifs at hz with hif
      simp_all

/-- Witness for C8: `"10.9.5.10"` yields zone 9 and a hostname yields
nothing. -/
theorem extract_zone_spec_witness :
    extract_zone_from_ip ("10.9.5.10".data) = some (natValue ("9".data)) ∧
    extract_zone_from_ip ("switch.example.com".data) = none := by
  have h1 := extract_zone_spec ("10.9.5.10".data)
  have h2 := extract_zone_spec ("switch.example.com".data)
  constructor
  · exact (h1.1 ("10".data) ("9".data) ("5".data) ("10".data)
      (by decide)).1 (by decide)
  · exact h2.2.1 (by decide)

/-! ## `config.py` / `tools/base.py` / `ssh_runner.py` — devices and
credential resolution -/

/-- `DeviceAuth` (config.py lines 26-43): the tagged credential variant. -/
inductive DeviceAuthE where
  | passwordEnv (env : List Char)
  | passwordInline (password : List Char)
  | privateKeyFile (path : List Char) (passphraseEnv : Option (List Char))
  deriving Repr, DecidableEq

/-- `Device` (config.py lines 55-75), restricted to the fields the embedded
handlers use. -/
structure DeviceE where
  id : List Char
  host : List Char
  port : Nat
  username : Option (List Char)
  auth : Option DeviceAuthE
  deriving Repr, DecidableEq

/-- Pydantic construction of `AuthPasswordInline`: the model declares
`type: Literal["password_inline"]` with *no default*, so a call that omits
the `type` keyword raises `ValidationError` — which subclasses
`ValueError`. -/
def mkAuthPasswordInline (ty : Option (List Char)) (password : List Char) :
    Except PyExc DeviceAuthE :=
  match ty with
  | none =>
    .error (.valueError ("validation error: type field required".data))
  | some t =>
    if t = "password_inline".data then .ok (.passwordInline password)
    else .error (.valueError ("validation error: unexpected type".data))

/-- `create_device_from_host` (tools/base.py lines 22-35):
`auth = AuthPasswordInline(password="") if username else None` — note that
the `type` field is not passed — then build the transient `Device`. -/
def create_device_from_host (host : List Char) (port : Nat)
    (username : Option (List Char)) : Except PyExc DeviceE :=
  let mk : Option DeviceAuthE → DeviceE := fun a =>
    { id := "dynamic-".data ++ host, host := host, port := port,
      username := username, auth := a }
  match username with
  | some u =>
    if u = [] then .ok (mk none)
    else
      match mkAuthPasswordInline none [] with
      | .error e => .error e
      | .ok a => .ok (mk (some a))
  | none => .ok (mk none)

/-- Steps 3 and 4 of `SSHRunner._resolve_auth` (ssh_runner.py lines
282-291): the default auth handed to the runner, then the
`AOS_DEVICE_PASSWORD` environment variable (empty env values are falsy). -/
def resolveAuthFallback (deviceId : List Char)
    (defaultAuth : Option DeviceAuthE) (envPassword : Option (List Char)) :
    Except PyExc DeviceAuthE :=
  match defaultAuth with
  | some a => .ok a
  | none =>
    match envPassword with
    | some p =>
      if p = [] then
        .error (.sshExecutionError
          ("Missing SSH password for device ".data ++ deviceId))
      else .ok (.passwordEnv ("AOS_DEVICE_PASSWORD".data))
    | none =>
      .error (.sshExecutionError
        ("Missing SSH password for device ".data ++ deviceId))

/-- `SSHRunner._resolve_auth` (ssh_runner.py lines 261-291): device auth
first; then the zone resolver's primary credentials (used when the password
is truthy, wrapped as an inline password *with* its `type` field); then the
runner default; then `AOS_DEVICE_PASSWORD`. -/
def resolveAuth (device : DeviceE)
    (zoneCreds : Option (List Char × List Char))
    (defaultAuth : Option DeviceAuthE) (envPassword : Option (List Char)) :
    Except PyExc DeviceAuthE :=
  match device.auth with
  | some a => .ok a
  | none =>
    match zoneCreds with
    | some (_, pw) =>
      if pw ≠ [] then .ok (.passwordInline pw)
      else resolveAuthFallback device.id defaultAuth envPassword
    | none => resolveAuthFallback device.id defaultAuth envPassword

/-- A no-auth transient device, as `create_device_from_host` builds it for
a call without a username. -/
def devNoAuth : DeviceE :=
  { id := "dynamic-10.0.0.1".data, host := "10.0.0.1".data, port := 22,
    username := none, auth := none }

/-- C10: supplying a username makes `create_device_from_host` raise a
pydantic `ValidationError` (the `AuthPasswordInline(password="")` call
omits the required `type` literal), so no device with an inline
empty-string password is ever built; without a username the device has
`auth = None` and `_resolve_auth` consults the zone resolver, the
configured default auth and the `AOS_DEVICE_PASSWORD` fallback in that
order. -/
theorem username_inline_auth_bug :
    (∃ m, create_device_from_host ("10.0.0.1".data) 22
        (some ("admin".data)) = .error (.valueError m)) ∧
    create_device_from_host ("10.0.0.1".data) 22 none = .ok devNoAuth ∧
    resolveAuth devNoAuth (some ("zu".data, "zp".data))
        (some (.passwordEnv ("X".data))) (some ("e".data)) =
      .ok (.passwordInline ("zp".data)) ∧
    resolveAuth devNoAuth none (some (.passwordEnv ("X".data)))
        (some ("e".data)) = .ok (.passwordEnv ("X".data)) ∧
    resolveAuth devNoAuth none none (some ("e".data)) =
      .ok (.passwordEnv ("AOS_DEVICE_PASSWORD".data)) ∧
    (∃ m, resolveAuth devNoAuth none none none =
      .error (.sshExecutionError m)) ∧
    resolveAuth { devNoAuth with auth := some (.passwordInline ("pw".data)) }
        (some ("zu".data, "zp".data)) (some (.passwordEnv ("X".data)))
        (some ("e".data)) = .ok (.passwordInline ("pw".data)) := by
  refine ⟨⟨_, rfl⟩, rfl, rfl, rfl, rfl, ⟨_, rfl⟩, rfl⟩

/-! ## `policy.py` — output sanitisation: ANSI stripping and redaction -/

/-- The parameter bytes of an ANSI CSI sequence, `0x30` to `0x3F`. -/
def isAnsiParam (c : Char) : Bool :=
  0x30 ≤ c.toNat && c.toNat ≤ 0x3F

/-- The intermediate bytes of an ANSI CSI sequence, `0x20` to `0x2F`. -/
def isAnsiInter (c : Char) : Bool :=
  0x20 ≤ c.toNat && c.toNat ≤ 0x2F

/-- The final byte of an ANSI CSI sequence, `0x40` to `0x7E`. -/
def isAnsiFinal (c : Char) : Bool :=
  0x40 ≤ c.toNat && c.toNat ≤ 0x7E

theorem length_dropWhile_add_takeWhile (p : Char → Bool) (l : List Char) :
    (l.dropWhile p).length + (l.takeWhile p).length = l.length := by
  have h0 : List.takeWhile p l ++ List.dropWhile p l = l :=
    List.takeWhile_append_dropWhile ..
  have h := congrArg List.length h0
  simp only [List.length_append] at h
  omega

/-- Try to match `_ANSI_RE` (policy.py line 10: ESC, `[`, a run of
parameter bytes, a run of intermediate bytes, one final byte) at the head
of the string, returning the remainder after the match. -/
def tryAnsi (s : List Char) : Option (List Char) :=
  match s with
  | a :: b :: rest =>
    if a = '\x1b' && b = '[' then
      match (rest.dropWhile isAnsiParam).dropWhile isAnsiInter with
      | c :: r => if isAnsiFinal c then some r else none
      | [] => none
    else none
  | _ => none

theorem tryAnsi_length {s r : List Char} (h : tryAnsi s = some r) :
    r.length < s.length := by
  match s with
  | [] => simp [tryAnsi] at h
  | [c] => simp [tryAnsi] at h
  | a :: b :: rest =>
    simp only [tryAnsi] at h
    split_ifs at h
    split at h
    · next c r' hdrop =>
      split_ifs at h
      simp only [Option.some.injEq] at h
      subst h
      have h1 := length_dropWhile_add_takeWhile isAnsiParam rest
      have h2 := length_dropWhile_add_takeWhile isAnsiInter
        (rest.dropWhile isAnsiParam)
      have h3 : ((rest.dropWhile isAnsiParam).dropWhile isAnsiInter).length =
          r'.length + 1 := by rw [hdrop]; simp
      simp only [List.length_cons]
      omega
    · exact absurd h (by simp)

/-- Fuelled worker for `strip_ansi`; the fuel only bounds the recursion
(every removed or copied character consumes at least one unit), so any fuel
of at least the string length gives the scan's result. -/
def stripAnsiAux (fuel : Nat) (s : List Char) : List Char :=
  match fuel, s with
  | 0, _ => []
  | _ + 1, [] => []
  | fuel + 1, c :: cs =>
    match tryAnsi (c :: cs) with
    | some rest => stripAnsiAux fuel rest
    | none => c :: stripAnsiAux fuel cs

/-- `strip_ansi` (policy.py lines 59-60): `_ANSI_RE.sub("", text)` — scan
left to right, removing each CSI sequence and continuing after it. -/
def strip_ansi (s : List Char) : List Char :=
  stripAnsiAux s.length s

/-- Try to match `(?i)(kw\s+)(\S+)` (the shape of every default redaction
rule in `config.py` lines 166-170) at the head of `s`.  The keyword is a
case-insensitive literal, `\s+` and `\S+` are greedy runs over
complementary classes, so matching is deterministic: on success return the
group-1 capture (keyword text plus whitespace run) and the remainder after
the group-2 secret. -/
def tryKwMatch (kw : List Char) (s : List Char) :
    Option (List Char × List Char) :=
  if ciEq (s.take kw.length) kw then
    if ((s.drop kw.length).takeWhile isPyWs).isEmpty then none
    else if (((s.drop kw.length).dropWhile isPyWs).takeWhile
        (fun c => !(isPyWs c))).isEmpty then none
    else
      some (s.take kw.length ++ (s.drop kw.length).takeWhile isPyWs,
        ((s.drop kw.length).dropWhile isPyWs).dropWhile
          (fun c => !(isPyWs c)))
  else none

theorem tryKwMatch_rest_length {kw s g1 rest : List Char}
    (h : tryKwMatch kw s = some (g1, rest)) : rest.length < s.length := by
  unfold tryKwMatch at h
  split_ifs at h with h1 h2 h3
  simp only [Option.some.injEq, Prod.mk.injEq] at h
  obtain ⟨-, hrest⟩ := h
  have e1 := length_dropWhile_add_takeWhile isPyWs (s.drop kw.length)
  have e2 := length_dropWhile_add_takeWhile (fun c => !(isPyWs c))
    ((s.drop kw.length).dropWhile isPyWs)
  have e3 : (s.drop kw.length).length ≤ s.length := by
    simp [List.length_drop]
  have e4 : ((s.drop kw.length).takeWhile isPyWs).length ≠ 0 := by
    intro hl
    exact h2 (by simp [List.length_eq_zero.mp hl])
  have e5 : (((s.drop kw.length).dropWhile isPyWs).takeWhile
      (fun c => !(isPyWs c))).length ≠ 0 := by
    intro hl
    exact h3 (by simp [List.length_eq_zero.mp hl])
  have e6 : rest.length = (((s.drop kw.length).dropWhile isPyWs).dropWhile
      (fun c => !(isPyWs c))).length := by rw [hrest]
  omega

/-- Fuelled worker for `subKw`; fuel of at least the string length gives
the scan's result. -/
def subKwAux (kw : List Char) (fuel : Nat) (s : List Char) : List Char :=
  match fuel, s with
  | 0, _ => []
  | _ + 1, [] => []
  | fuel + 1, c :: cs =>
    match tryKwMatch kw (c :: cs) with
    | some (g1, rest) => g1 ++ "***".data ++ subKwAux kw fuel rest
    | none => c :: subKwAux kw fuel cs

/-- `re.sub` of one redaction rule `(?i)(kw\s+)(\S+)` with replacement
`\1***` (policy.py `apply_redactions`, lines 63-75): scan left to right,
replacing each non-overlapping match's secret with `***`. -/
def subKw (kw : List Char) (s : List Char) : List Char :=
  subKwAux kw s.length s

theorem subKwAux_fuel (kw : List Char) (f1 : Nat) :
    ∀ (s : List Char) (f2 : Nat), s.length ≤ f1 → s.length ≤ f2 →
      subKwAux kw f1 s = subKwAux kw f2 s := by
  induction f1 with
  | zero =>
    intro s f2 h1 _
    have : s = [] := List.length_eq_zero.mp (Nat.le_zero.mp h1)
    subst this
    cases f2 <;> rfl
  | succ f ih =>
    intro s f2 h1 h2
    cases s with
    | nil => cases f2 <;> rfl
    | cons c cs =>
      cases f2 with
      | zero => simp at h2
      | succ f2' =>
        cases hm : tryKwMatch kw (c :: cs) with
        | some pr =>
          obtain ⟨g1, rest⟩ := pr
          have hlt := tryKwMatch_rest_length hm
          simp only [List.length_cons] at h1 h2 hlt
          simp only [subKwAux, hm]
          rw [ih rest f2' (by omega) (by omega)]
        | none =>
          simp only [List.length_cons] at h1 h2
          simp only [subKwAux, hm]
          rw [ih cs f2' (by omega) (by omega)]

theorem subKw_nil (kw : List Char) : subKw kw [] = [] := rfl

theorem subKw_cons_match {kw g1 rest : List Char} {c : Char} {cs : List Char}
    (h : tryKwMatch kw (c :: cs) = some (g1, rest)) :
    subKw kw (c :: cs) = g1 ++ "***".data ++ subKw kw rest := by
  have hlt := tryKwMatch_rest_length h
  simp only [List.length_cons] at hlt
  unfold subKw
  simp only [List.length_cons, subKwAux, h]
  rw [subKwAux_fuel kw cs.length rest rest.length (by omega) (by omega)]

theorem subKw_cons_none {kw : List Char} {c : Char} {cs : List Char}
    (h : tryKwMatch kw (c :: cs) = none) :
    subKw kw (c :: cs) = c :: subKw kw cs := by
  unfold subKw
  simp only [List.length_cons, subKwAux, h]

/-! Facts about `tryKwMatch` and `subKw` leading to per-rule idempotence of
the redaction pass. -/

theorem ciEq_length {a b : List Char} (h : ciEq a b = true) :
    a.length = b.length := by
  unfold ciEq at h
  have := congrArg List.length (by exact_mod_cast of_decide_eq_true h :
    a.map pyLowerChar = b.map pyLowerChar)
  simpa using this

theorem ciEq_mem_nonws {a kw : List Char} (h : ciEq a kw = true)
    (hkw : ∀ c ∈ kw, isPyWs c = false) : ∀ c ∈ a, isPyWs c = false := by
  intro c hc
  have hmap : a.map pyLowerChar = kw.map pyLowerChar := by
    exact_mod_cast of_decide_eq_true h
  have h1 : pyLowerChar c ∈ kw.map pyLowerChar := by
    rw [← hmap]; exact List.mem_map_of_mem _ hc
  obtain ⟨k, hk, hke⟩ := List.mem_map.mp h1
  have := isPyWs_pyLowerChar c
  have h2 := isPyWs_pyLowerChar k
  rw [← this, ← hke, h2]
  exact hkw k hk

theorem takeWhile_all_append (p : Char → Bool) (a b : List Char)
    (h : ∀ x ∈ a, p x = true) :
    (a ++ b).takeWhile p = a ++ b.takeWhile p := by
  induction a with
  | nil => simp
  | cons x xs ih =>
    have hx := h x (by simp)
    simp only [List.cons_append, List.takeWhile_cons, hx, if_true]
    rw [ih (fun y hy => h y (by simp [hy]))]

theorem dropWhile_all_append (p : Char → Bool) (a b : List Char)
    (h : ∀ x ∈ a, p x = true) :
    (a ++ b).dropWhile p = b.dropWhile p := by
  induction a with
  | nil => simp
  | cons x xs ih =>
    simp only [List.cons_append, List.dropWhile_cons]
    rw [h x (by simp)]
    exact ih (fun y hy => h y (by simp [hy]))

theorem dropWhile_head_false {p : Char → Bool} {l r : List Char} {c : Char}
    (h : l.dropWhile p = c :: r) : p c = false := by
  induction l with
  | nil => simp at h
  | cons x xs ih =>
    rw [List.dropWhile_cons] at h
    split_ifs at h with hp
    · exact ih h
    · injection h with h1 _
      subst h1
      exact Bool.not_eq_true _ |>.mp hp

/-- Unpack a successful `tryKwMatch`. -/
theorem tryKwMatch_some_parts {kw s g1 rest : List Char}
    (h : tryKwMatch kw s = some (g1, rest)) :
    ciEq (s.take kw.length) kw = true ∧
    g1 = s.take kw.length ++ (s.drop kw.length).takeWhile isPyWs ∧
    (s.drop kw.length).takeWhile isPyWs ≠ [] ∧
    ((s.drop kw.length).dropWhile isPyWs).takeWhile
      (fun c => !(isPyWs c)) ≠ [] ∧
    rest = ((s.drop kw.length).dropWhile isPyWs).dropWhile
      (fun c => !(isPyWs c)) := by
  unfold tryKwMatch at h
  split_ifs at h with h1 h2 h3
  simp only [Option.some.injEq, Prod.mk.injEq] at h
  refine ⟨h1, h.1.symm, ?_, ?_, h.2.symm⟩
  · intro hnil; exact h2 (by simp [hnil])
  · intro hnil; exact h3 (by simp [hnil])

/-- Unpack a failed `tryKwMatch`: the case-insensitive prefix fails, or
there is no whitespace after the keyword, or nothing except whitespace
follows the keyword. -/
theorem tryKwMatch_none_cases {kw s : List Char}
    (h : tryKwMatch kw s = none) :
    ciEq (s.take kw.length) kw = false ∨
    (s.drop kw.length).takeWhile isPyWs = [] ∨
    (s.drop kw.length).dropWhile isPyWs = [] := by
  unfold tryKwMatch at h
  split_ifs at h with h1 h2 h3
  · refine .inr (.inl ?_)
    simpa [List.isEmpty_iff] using h2
  · -- the secret run is empty although `dropWhile isPyWs` starts with a
    -- non-whitespace character (when nonempty), so it must be empty
    have h3' : ((s.drop kw.length).dropWhile isPyWs).takeWhile
        (fun c => !(isPyWs c)) = [] := by simpa [List.isEmpty_iff] using h3
    refine .inr (.inr ?_)
    cases hu : (s.drop kw.length).dropWhile isPyWs with
    | nil => rfl
    | cons u us =>
      have hns := dropWhile_head_false hu
      rw [hu, List.takeWhile_cons] at h3'
      simp [hns] at h3'
  · exact .inl (by simpa using h1)

/-- A successful match consumes at least the keyword plus one whitespace
plus one secret character. -/
theorem tryKwMatch_some_length {kw s : List Char}
    {pr : List Char × List Char} (h : tryKwMatch kw s = some pr) :
    kw.length + 2 ≤ s.length := by
  have h' : tryKwMatch kw s = some (pr.1, pr.2) := by simpa using h
  obtain ⟨h1, _, h3, h4, _⟩ := tryKwMatch_some_parts h'
  have e0 : (s.take kw.length).length = kw.length := ciEq_length h1
  have e1 := length_dropWhile_add_takeWhile isPyWs (s.drop kw.length)
  have e2 := length_dropWhile_add_takeWhile (fun c => !(isPyWs c))
    ((s.drop kw.length).dropWhile isPyWs)
  have e3 : ((s.drop kw.length).takeWhile isPyWs).length ≠ 0 := by
    intro hl; exact h3 (List.length_eq_zero.mp hl)
  have e4 : (((s.drop kw.length).dropWhile isPyWs).takeWhile
      (fun c => !(isPyWs c))).length ≠ 0 := by
    intro hl; exact h4 (List.length_eq_zero.mp hl)
  have e5 : (s.take kw.length).length + (s.drop kw.length).length =
      s.length := by
    rw [← List.length_append, List.take_append_drop]
  omega

/-- Strings shorter than a possible match are fixpoints of `subKw`. -/
theorem subKw_short {kw : List Char} :
    ∀ {s : List Char}, s.length < kw.length + 2 → subKw kw s = s := by
  intro s
  induction s with
  | nil => intro _; rfl
  | cons c cs ih =>
    intro hlen
    cases hm : tryKwMatch kw (c :: cs) with
    | some pr =>
      have := tryKwMatch_some_length hm
      simp only [List.length_cons] at this hlen
      omega
    | none =>
      rw [subKw_cons_none hm, ih (by simp only [List.length_cons] at hlen ⊢; omega)]

/-- If no suffix of `s` matches, `s` is a fixpoint of `subKw`. -/
theorem subKw_of_no_suffix_match {kw : List Char} :
    ∀ {s : List Char}, (∀ t, t <:+ s → tryKwMatch kw t = none) →
      subKw kw s = s := by
  intro s
  induction s with
  | nil => intro _; rfl
  | cons c cs ih =>
    intro hall
    rw [subKw_cons_none (hall _ (List.suffix_refl _)),
      ih (fun t ht => hall t (ht.trans (List.suffix_cons c cs)))]

/-- A keyword of non-whitespace characters can never match at a position
whose first character is whitespace. -/
theorem tryKwMatch_ws_head {kw : List Char} (hne : kw ≠ [])
    (hkw : ∀ c ∈ kw, isPyWs c = false) {c : Char} {cs : List Char}
    (hc : isPyWs c = true) : tryKwMatch kw (c :: cs) = none := by
  have hci : ciEq ((c :: cs).take kw.length) kw = false := by
    cases kw with
    | nil => exact absurd rfl hne
    | cons k kt =>
      by_contra hct
      have hct' : ciEq ((c :: cs).take (k :: kt).length) (k :: kt) = true :=
        Bool.not_eq_false _ |>.mp hct
      rw [List.length_cons, List.take_succ_cons] at hct'
      have hmap : (c :: cs.take kt.length).map pyLowerChar =
          (k :: kt).map pyLowerChar := by exact_mod_cast of_decide_eq_true hct'
      simp only [List.map_cons, List.cons.injEq] at hmap
      have : isPyWs c = isPyWs k := by
        rw [← isPyWs_pyLowerChar c, hmap.1, isPyWs_pyLowerChar k]
      rw [this, hkw k (by simp)] at hc
      exact Bool.false_ne_true hc
  unfold tryKwMatch
  rw [hci]
  simp

/-- The rest of a successful match is empty or starts with whitespace. -/
theorem tryKwMatch_rest_shape {kw s g1 rest : List Char}
    (h : tryKwMatch kw s = some (g1, rest)) :
    rest = [] ∨ ∃ r rs, rest = r :: rs ∧ isPyWs r = true := by
  obtain ⟨-, -, -, -, h5⟩ := tryKwMatch_some_parts h
  cases hr : rest with
  | nil => exact .inl rfl
  | cons r rs =>
    refine .inr ⟨r, rs, rfl, ?_⟩
    have := dropWhile_head_false (h5 ▸ hr)
    simpa using this

/-- `subKw` preserves the first `kw.length + 1` characters of the string. -/
theorem subKw_take_eq (kw : List Char) :
    ∀ (n : Nat) (s : List Char), s.length ≤ n → ∀ k, k ≤ kw.length + 1 →
      (subKw kw s).take k = s.take k := by
  intro n
  induction n with
  | zero =>
    intro s hs k _
    rw [List.length_eq_zero.mp (Nat.le_zero.mp hs)]
    rfl
  | succ m ih =>
    intro s hs k hk
    cases s with
    | nil => rfl
    | cons c cs =>
      cases hm : tryKwMatch kw (c :: cs) with
      | some pr =>
        obtain ⟨g1, rest⟩ := pr
        rw [subKw_cons_match hm]
        obtain ⟨h1, h2, h3, -, -⟩ := tryKwMatch_some_parts hm
        have hkwlen : ((c :: cs).take kw.length).length = kw.length :=
          ciEq_length h1
        have hws : ((c :: cs).drop kw.length).takeWhile isPyWs ≠ [] := h3
        have hwsl : (((c :: cs).drop kw.length).takeWhile isPyWs).length ≠
            0 := fun hl => h3 (List.length_eq_zero.mp hl)
        have hg1len : kw.length + 1 ≤ g1.length := by
          rw [h2, List.length_append, hkwlen]
          omega
        have hsdecomp : (c :: cs) = g1 ++
            ((c :: cs).drop kw.length).dropWhile isPyWs := by
          rw [h2, List.append_assoc, List.takeWhile_append_dropWhile,
            List.take_append_drop]
        have hrhs : List.take k (c :: cs) = List.take k g1 := by
          conv_lhs => rw [hsdecomp]
          rw [List.take_append_eq_append_take,
            show k - g1.length = 0 by omega, List.take_zero,
            List.append_nil]
        rw [List.take_append_eq_append_take,
          show k - (g1 ++ "***".data).length = 0 by
            simp only [List.length_append]; omega,
          List.take_zero, List.append_nil,
          List.take_append_eq_append_take,
          show k - g1.length = 0 by omega,
          List.take_zero, List.append_nil, hrhs]
      | none =>
        rw [subKw_cons_none hm]
        cases k with
        | zero => rfl
        | succ j =>
          simp only [List.take_succ_cons]
          rw [ih cs (by simp only [List.length_cons] at hs; omega) j
            (by omega)]

/-- Convenient corollary of `subKw_take_eq`. -/
theorem subKw_take (kw s : List Char) (k : Nat) (hk : k ≤ kw.length + 1) :
    (subKw kw s).take k = s.take k :=
  subKw_take_eq kw s.length s le_rfl k hk

/-- `subKw` preserves the empty-or-whitespace-headed shape. -/
theorem subKw_wsHead {kw : List Char} (hne : kw ≠ [])
    (hkw : ∀ c ∈ kw, isPyWs c = false) {rest : List Char}
    (h : rest = [] ∨ ∃ r rs, rest = r :: rs ∧ isPyWs r = true) :
    subKw kw rest = [] ∨
    ∃ r rs, subKw kw rest = r :: rs ∧ isPyWs r = true := by
  rcases h with h | ⟨r, rs, hrr, hr⟩
  · subst h; exact .inl rfl
  · subst hrr
    rw [subKw_cons_none (tryKwMatch_ws_head hne hkw hr)]
    exact .inr ⟨r, subKw kw rs, rfl, hr⟩

theorem pyLower_ws_ne {a b : Char} (ha : isPyWs a = true)
    (hb : isPyWs b = false) : pyLowerChar a ≠ pyLowerChar b := by
  intro h
  rw [← isPyWs_pyLowerChar a, h, isPyWs_pyLowerChar b, hb] at ha
  exact Bool.false_ne_true ha

theorem suffix_append_cases {t a b : List Char} (h : t <:+ (a ++ b)) :
    t <:+ b ∨ ∃ a', a' <:+ a ∧ a' ≠ [] ∧ t = a' ++ b := by
  induction a with
  | nil => exact .inl (by simpa using h)
  | cons x xs ih =>
    rw [List.cons_append] at h
    rcases List.suffix_cons_iff.mp h with h | h
    · exact .inr ⟨x :: xs, List.suffix_refl _, by simp,
        by rw [h, List.cons_append]⟩
    · rcases ih h with h' | ⟨a', ha1, ha2, ha3⟩
      · exact .inl h'
      · exact .inr ⟨a', ha1.trans (List.suffix_cons x xs), ha2, ha3⟩

theorem tryKwMatch_nil_none {kw : List Char} (hne : kw ≠ []) :
    tryKwMatch kw [] = none := by
  have hci : ciEq (([] : List Char).take kw.length) kw = false := by
    cases kw with
    | nil => exact absurd rfl hne
    | cons k kt => simp [ciEq]
  unfold tryKwMatch
  rw [hci]
  simp

/-- No suffix of "fewer than `kw.length` non-whitespace characters followed
by whitespace" can match. -/
theorem tryKwMatch_tail_shape_none {kw : List Char} (hne : kw ≠ [])
    (hkw : ∀ c ∈ kw, isPyWs c = false) {p w : List Char}
    (hp : p.length < kw.length)
    (hw : ∀ c ∈ w, isPyWs c = true) :
    ∀ t, t <:+ (p ++ w) → tryKwMatch kw t = none := by
  intro t ht
  rcases suffix_append_cases ht with htw | ⟨p', hp'1, hp'2, rfl⟩
  · cases t with
    | nil => exact tryKwMatch_nil_none hne
    | cons c cs =>
      exact tryKwMatch_ws_head hne hkw (hw c (htw.subset (by simp)))
  · have hp'len : p'.length ≤ p.length := hp'1.length_le
    have hci : ciEq ((p' ++ w).take kw.length) kw = false := by
      by_contra hct
      have hct' : ciEq ((p' ++ w).take kw.length) kw = true :=
        Bool.not_eq_false _ |>.mp hct
      have hqlen := ciEq_length hct'
      have hq : (p' ++ w).take kw.length =
          p' ++ w.take (kw.length - p'.length) := by
        rw [List.take_append_eq_append_take,
          List.take_of_length_le (by omega)]
      rw [hq] at hct' hqlen
      have hwtlen : (w.take (kw.length - p'.length)).length =
          kw.length - p'.length := by
        rw [List.length_append] at hqlen
        omega
      have hmap : p'.map pyLowerChar ++
          (w.take (kw.length - p'.length)).map pyLowerChar =
          (kw.take p'.length).map pyLowerChar ++
          (kw.drop p'.length).map pyLowerChar := by
        have := (of_decide_eq_true hct' :
          (p' ++ w.take (kw.length - p'.length)).map pyLowerChar =
            kw.map pyLowerChar)
        rw [List.map_append] at this
        rw [this, ← List.map_append, List.take_append_drop]
      have hlens : (p'.map pyLowerChar).length =
          ((kw.take p'.length).map pyLowerChar).length := by
        simp [List.length_take]
        omega
      have hwmap := (List.append_inj hmap (by simpa using hlens)).2
      cases hwt : w.take (kw.length - p'.length) with
      | nil => rw [hwt] at hwtlen; simp at hwtlen; omega
      | cons wh wt =>
        cases hkd : kw.drop p'.length with
        | nil =>
          have := congrArg List.length hkd
          simp [List.length_drop] at this
          omega
        | cons kh kt =>
          rw [hwt, hkd] at hwmap
          simp only [List.map_cons, List.cons.injEq] at hwmap
          have hwh : isPyWs wh = true :=
            hw wh (List.take_subset _ _ (hwt ▸ List.mem_cons_self wh wt))
          have hkh : isPyWs kh = false :=
            hkw kh (List.drop_subset _ _ (hkd ▸ List.mem_cons_self kh kt))
          exact pyLower_ws_ne hwh hkh hwmap.1
    unfold tryKwMatch
    rw [hci]
    simp

/-- If a position does not match, it still does not match after the tail of
the string has been rewritten by `subKw`. -/
theorem tryKwMatch_none_subKw {kw : List Char} (hne : kw ≠ [])
    (hkw : ∀ c ∈ kw, isPyWs c = false) {c : Char} {cs : List Char}
    (h : tryKwMatch kw (c :: cs) = none) :
    tryKwMatch kw (c :: subKw kw cs) = none := by
  obtain ⟨m, hkwlen⟩ : ∃ m, kw.length = m + 1 := by
    cases kw with
    | nil => exact absurd rfl hne
    | cons k kt => exact ⟨kt.length, rfl⟩
  rcases tryKwMatch_none_cases h with h1 | h2 | h3
  · -- the case-insensitive prefix already fails, and `subKw` preserves it
    have hpre : (c :: subKw kw cs).take kw.length =
        (c :: cs).take kw.length := by
      rw [hkwlen, List.take_succ_cons, List.take_succ_cons,
        subKw_take kw cs m (by omega)]
    unfold tryKwMatch
    rw [hpre, h1]
    simp
  · -- no whitespace follows the keyword position
    rw [hkwlen, List.drop_succ_cons] at h2
    cases hd : cs.drop m with
    | nil =>
      -- the string is too short to match at all; `subKw` fixes it
      have hcl : cs.length ≤ m := by
        have := congrArg List.length hd
        simp [List.length_drop] at this ⊢
        omega
      rw [subKw_short (by omega : cs.length < kw.length + 2)]
      exact h
    | cons d t' =>
      have hdns : isPyWs d = false := by
        rw [hd, List.takeWhile_cons] at h2
        by_contra hdt
        rw [Bool.not_eq_false _ |>.mp hdt] at h2
        simp at h2
      have hws' : ((c :: subKw kw cs).drop kw.length).takeWhile isPyWs
          = [] := by
        rw [hkwlen, List.drop_succ_cons]
        cases hd2 : (subKw kw cs).drop m with
        | nil => rfl
        | cons e t2 =>
          have h1' : ((subKw kw cs).take (m + 1)).drop m =
              ((subKw kw cs).drop m).take 1 := by
            rw [List.drop_take (m + 1) m]
            congr 1
            omega
          have h2' : (cs.take (m + 1)).drop m = (cs.drop m).take 1 := by
            rw [List.drop_take (m + 1) m]
            congr 1
            omega
          have h3' := subKw_take kw cs (m + 1) (by omega)
          have key : (cs.drop m).take 1 = ((subKw kw cs).drop m).take 1 := by
            calc (cs.drop m).take 1 = (cs.take (m + 1)).drop m := h2'.symm
              _ = ((subKw kw cs).take (m + 1)).drop m := by rw [h3']
              _ = ((subKw kw cs).drop m).take 1 := h1'
          rw [hd, hd2] at key
          simp only [List.take_succ_cons, List.take_zero,
            List.cons.injEq] at key
          rw [List.takeWhile_cons, ← key.1, hdns]
          simp
      unfold tryKwMatch
      split_ifs with a b c
      all_goals first
        | rfl
        | exact absurd (by simp [hws']) b
  · -- nothing but whitespace follows the keyword position: no suffix of
    -- `cs` can match, so `subKw` fixes `cs`
    rw [hkwlen, List.drop_succ_cons] at h3
    have hwall : ∀ x ∈ cs.drop m, isPyWs x = true :=
      List.dropWhile_eq_nil_iff.mp h3
    have hfix : subKw kw cs = cs := by
      apply subKw_of_no_suffix_match
      intro t ht
      have hplen : (cs.take m).length < kw.length := by
        have : (cs.take m).length ≤ m := by simp
        omega
      have hsuf : t <:+ (cs.take m ++ cs.drop m) := by
        rw [List.take_append_drop]
        exact ht
      exact tryKwMatch_tail_shape_none hne hkw hplen hwall t hsuf
    rw [hfix]
    exact h

theorem subKw_match {kw s g1 rest : List Char} (hs : s ≠ [])
    (h : tryKwMatch kw s = some (g1, rest)) :
    subKw kw s = g1 ++ "***".data ++ subKw kw rest := by
  cases s with
  | nil => exact absurd rfl hs
  | cons c cs => exact subKw_cons_match h

/-- One redaction substitution is idempotent: re-running
`re.sub((?i)(kw\s+)(\S+), \1***)` on its own output changes nothing —
every replaced block `kw⟨ws⟩***` re-matches with `***` as its secret and is
re-replaced by itself, and no new match is created elsewhere. -/
theorem subKw_idem {kw : List Char} (hne : kw ≠ [])
    (hkw : ∀ c ∈ kw, isPyWs c = false) (s : List Char) :
    subKw kw (subKw kw s) = subKw kw s := by
  suffices h : ∀ n s, s.length ≤ n → subKw kw (subKw kw s) = subKw kw s by
    exact h s.length s le_rfl
  intro n
  induction n with
  | zero =>
    intro s hs
    rw [List.length_eq_zero.mp (Nat.le_zero.mp hs)]
    rfl
  | succ m ih =>
    intro s hs
    cases s with
    | nil => rfl
    | cons c cs =>
      cases hm : tryKwMatch kw (c :: cs) with
      | none =>
        rw [subKw_cons_none hm,
          subKw_cons_none (tryKwMatch_none_subKw hne hkw hm),
          ih cs (by simp only [List.length_cons] at hs; omega)]
      | some pr =>
        obtain ⟨g1, rest⟩ := pr
        obtain ⟨h1, h2, h3, h4, h5⟩ := tryKwMatch_some_parts hm
        have hrlen := tryKwMatch_rest_length hm
        have hXshape := subKw_wsHead hne hkw (tryKwMatch_rest_shape hm)
        have hkwpartlen : ((c :: cs).take kw.length).length = kw.length :=
          ciEq_length h1
        have hwsmem : ∀ x ∈ ((c :: cs).drop kw.length).takeWhile isPyWs,
            isPyWs x = true := fun x hx => List.mem_takeWhile_imp hx
        -- components of the scan over the rewritten block
        have hS'take : (g1 ++ ("***".data ++ subKw kw rest)).take kw.length =
            (c :: cs).take kw.length := by
          rw [h2, List.append_assoc]
          exact List.take_left' hkwpartlen
        have hS'drop : (g1 ++ ("***".data ++ subKw kw rest)).drop kw.length =
            ((c :: cs).drop kw.length).takeWhile isPyWs ++
              ("***".data ++ subKw kw rest) := by
          rw [h2, List.append_assoc]
          exact List.drop_left' hkwpartlen
        have hstar3 : ∀ x ∈ "***".data, (!(isPyWs x)) = true := by decide
        have htw : (((c :: cs).drop kw.length).takeWhile isPyWs ++
            ("***".data ++ subKw kw rest)).takeWhile isPyWs =
            ((c :: cs).drop kw.length).takeWhile isPyWs := by
          rw [takeWhile_all_append _ _ _ hwsmem]
          rw [show ("***".data ++ subKw kw rest).takeWhile isPyWs = [] from
            by rw [List.cons_append, List.takeWhile_cons]; simp [isPyWs]]
          rw [List.append_nil]
        have hdw : (((c :: cs).drop kw.length).takeWhile isPyWs ++
            ("***".data ++ subKw kw rest)).dropWhile isPyWs =
            "***".data ++ subKw kw rest := by
          rw [dropWhile_all_append _ _ _ hwsmem]
          rw [List.cons_append, List.dropWhile_cons]
          simp [isPyWs]
        have hsec : ("***".data ++ subKw kw rest).takeWhile
            (fun c => !(isPyWs c)) = "***".data := by
          rw [takeWhile_all_append _ _ _ hstar3]
          rcases hXshape with hX | ⟨r, rs, hX, hr⟩
          · rw [hX]; rfl
          · rw [hX, List.takeWhile_cons]
            simp [hr]
        have hrest2 : ("***".data ++ subKw kw rest).dropWhile
            (fun c => !(isPyWs c)) = subKw kw rest := by
          rw [dropWhile_all_append _ _ _ hstar3]
          rcases hXshape with hX | ⟨r, rs, hX, hr⟩
          · rw [hX]; rfl
          · rw [hX, List.dropWhile_cons]
            simp [hr]
        have hmatch : tryKwMatch kw (g1 ++ ("***".data ++ subKw kw rest)) =
            some (g1, subKw kw rest) := by
          unfold tryKwMatch
          rw [hS'take, if_pos h1, hS'drop, htw, hdw, hsec, hrest2]
          rw [if_neg (by simp [List.isEmpty_iff, h3]),
            if_neg (by simp [List.isEmpty_iff])]
          rw [h2]
        have hS'ne : g1 ++ ("***".data ++ subKw kw rest) ≠ [] := by
          have hkl : kw.length ≠ 0 :=
            fun h0 => hne (List.length_eq_zero.mp h0)
          intro hc
          have hlen := congrArg List.length hc
          rw [h2] at hlen
          simp only [List.length_append, List.length_nil, hkwpartlen] at hlen
          omega
        rw [subKw_cons_match hm, List.append_assoc]
        rw [subKw_match hS'ne hmatch]
        rw [ih rest (by simp only [List.length_cons] at hs hrlen; omega)]
        rw [List.append_assoc]

/-- `rule["pattern"].search(s)` for a redaction rule: does the rule match
anywhere in `s`? -/
def kwSearch (kw : List Char) : List Char → Bool
  | [] => false
  | c :: cs => (tryKwMatch kw (c :: cs)).isSome || kwSearch kw cs

/-- `apply_redactions` (policy.py lines 63-75) at the default redaction
configuration: apply each rule's substitution over the whole string, in
list order. -/
def apply_redactions (rules : List (List Char)) (s : List Char) : List Char :=
  rules.foldl (fun acc kw => subKw kw acc) s

/-- The two default redaction rules (config.py lines 166-170), identified
by their keyword literals: `(?i)(password\s+)(\S+)` → `\1***` and
`(?i)(community\s+)(\S+)` → `\1***`. -/
def defaultRedactions : List (List Char) :=
  ["password".data, "community".data]

/-- Output sanitisation as `handle_cli_readonly` performs it (tools/cli.py
lines 61-75) under the default policy: strip ANSI sequences, then apply the
redaction rules in order. -/
def sanitize_output (s : List Char) : List Char :=
  apply_redactions defaultRedactions (strip_ansi s)

/-- C9 counterexample: for the default rule `(?i)(password\s+)(\S+)` →
`\1***` and the input `password hunter2`, the sanitised output is
`password ***` — in which the rule's regex still matches (`***` is itself a
`\S+` secret), so redaction closure as claimed fails. -/
theorem redaction_closure_counterexample :
    "password".data ∈ defaultRedactions ∧
    sanitize_output ("password hunter2".data) = "password ***".data ∧
    kwSearch ("password".data)
      (sanitize_output ("password hunter2".data)) = true := by
  refine ⟨by decide, by decide, by decide⟩

/-- C9 (amended): a first redaction pass can leave residual matches of a
configured rule (the secret is replaced by `***`, which the rule matches
again); what does hold for every configured redaction rule is that its
substitution is idempotent — re-applying the same rule to its output
changes nothing, so the captured secret cannot survive a pass. -/
theorem redaction_rule_idempotent :
    ∀ kw ∈ defaultRedactions, ∀ s, subKw kw (subKw kw s) = subKw kw s := by
  intro kw hkw s
  have hcases : kw = "password".data ∨ kw = "community".data := by
    simpa [defaultRedactions] using hkw
  rcases hcases with rfl | rfl
  · exact subKw_idem (by decide) (by decide) s
  · exact subKw_idem (by decide) (by decide) s

/-- Witness for C9: idempotence evaluated on a concrete redacted string. -/
theorem redaction_rule_idempotent_witness :
    subKw ("password".data)
        (subKw ("password".data) ("enter password hunter2 now".data)) =
      subKw ("password".data) ("enter password hunter2 now".data) :=
  redaction_rule_idempotent ("password".data) (by decide)
    ("enter password hunter2 now".data)

/-! ## Tool handlers: `tools/cli.py`, `tools/system.py`, and the
`/v1/tools/call` dispatcher of `main.py` -/

/-- The result record of one `SSHRunner.run` call as the handlers consume it
(string form of `SSHResult`). -/
structure RunRes where
  stdout : List Char
  stderr : List Char
  exit_status : Option Int
  truncated : Bool
  deriving Repr, DecidableEq

/-- An execution oracle standing for `SSHRunner.run` on a fixed device: maps
the command string to an `SSHExecutionError` message or a result. -/
def RunOracle := List Char → Except (List Char) RunRes

/-- An oracle whose every command succeeds with empty output. -/
def oracleOkEmpty : RunOracle := fun _ =>
  .ok { stdout := [], stderr := [], exit_status := some 0, truncated := false }

/-- `ArgsCliReadonly` (tools/cli.py lines 19-25). -/
structure ArgsCliReadonly where
  host : List Char
  command : List Char
  port : Option Nat := some 22
  username : Option (List Char) := none
  timeout_s : Option Nat := none

/-- `ResultCliReadonly` (tools/cli.py lines 28-37). -/
structure ResultCliReadonly where
  host : List Char
  command : List Char
  stdout : List Char
  stderr : List Char
  exit_status : Option Int
  truncated : Bool
  redacted : Bool
  deriving Repr, DecidableEq

/-- `handle_cli_readonly` (tools/cli.py lines 44-86) under the default
command-policy configuration (whose redaction rules are
`defaultRedactions`): build the transient device, sanitize the command,
run it, strip ANSI if configured and apply redactions, flagging `redacted`
when a redaction changed the text.  The second component is the list of
command strings passed to `SSHRunner.run`. -/
def handle_cli_readonly (pol : CompiledCommandPolicy) (run : RunOracle)
    (args : ArgsCliReadonly) :
    Except PyExc ResultCliReadonly × List (List Char) :=
  match create_device_from_host args.host (args.port.getD 22) args.username with
  | .error e => (.error e, [])
  | .ok device =>
    match sanitize_command args.command pol with
    | .error m => (.error (.valueError m), [])
    | .ok cmd =>
      match run cmd with
      | .error m => (.error (.sshExecutionError m), [cmd])
      | .ok res =>
        let stdout1 := if pol.strip_ansi then strip_ansi res.stdout
          else res.stdout
        let stderr1 := if pol.strip_ansi then strip_ansi res.stderr
          else res.stderr
        let stdout2 := apply_redactions defaultRedactions stdout1
        let stderr2 := apply_redactions defaultRedactions stderr1
        (.ok { host := device.host, command := cmd, stdout := stdout2,
               stderr := stderr2, exit_status := res.exit_status,
               truncated := res.truncated,
               redacted := decide (stdout2 ≠ stdout1) ||
                 decide (stderr2 ≠ stderr1) }, [cmd])

/-- The `code` each exception class is mapped to by the `except` clauses of
`tools_call` (main.py lines 253-285). -/
def exceptionCode : PyExc → List Char
  | .keyError _ => "unknown_tool".data
  | .valueError _ => "invalid_request".data
  | .permissionError _ => "not_authorized".data
  | .sshExecutionError _ => "ssh_error".data
  | .indexError => "internal_error".data

/-- The caller-visible part of a `ToolCallResponse` (main.py): the status
and the `error.code` field. -/
structure ToolCallResp where
  status : List Char
  errCode : Option (List Char)
  deriving Repr, DecidableEq

/-- `POST /v1/tools/call` for `aos.cli.readonly` (main.py lines 226-285
composed with the dispatcher of tools/__init__.py): a handler exception is
converted to an error response via `exceptionCode`. -/
def tools_call_cli (pol : CompiledCommandPolicy) (run : RunOracle)
    (args : ArgsCliReadonly) : ToolCallResp × List (List Char) :=
  match handle_cli_readonly pol run args with
  | (.ok _, trace) => ({ status := "ok".data, errCode := none }, trace)
  | (.error e, trace) =>
    ({ status := "error".data, errCode := some (exceptionCode e) }, trace)

theorem create_device_error_shape {host : List Char} {port : Nat}
    {username : Option (List Char)} {e : PyExc}
    (h : create_device_from_host host port username = .error e) :
    ∃ m, e = .valueError m := by
  rcases username with - | u
  · simp [create_device_from_host] at h
  · by_cases hu : u = []
    · simp [create_device_from_host, hu] at h
    · simp [create_device_from_host, mkAuthPasswordInline, hu] at h
      exact ⟨_, h.symm⟩

/-- C2 (amended): a call whose command the policy rejects yields an error
response whose code is `invalid_request` (not `invalid_command` — the
dispatcher maps the `ValueError` that `sanitize_command` raises to
`invalid_request`), and `SSHRunner.run` is never invoked. -/
theorem policy_rejection_response (pol : CompiledCommandPolicy)
    (run : RunOracle) (args : ArgsCliReadonly)
    (h : ∃ m, sanitize_command args.command pol = .error m) :
    (tools_call_cli pol run args).1.status = "error".data ∧
    (tools_call_cli pol run args).1.errCode =
      some ("invalid_request".data) ∧
    (tools_call_cli pol run args).2 = [] := by
  obtain ⟨m, hm⟩ := h
  unfold tools_call_cli handle_cli_readonly
  cases hdev : create_device_from_host args.host (args.port.getD 22)
      args.username with
  | error e =>
    obtain ⟨m', rfl⟩ := create_device_error_shape hdev
    exact ⟨rfl, rfl, rfl⟩
  | ok device =>
    rw [hm]
    exact ⟨rfl, rfl, rfl⟩

/-- C2 counterexample: under the default policy, `rm -rf /` is rejected
with code `invalid_request`, which differs from the claimed
`invalid_command`; no command reaches the runner. -/
theorem invalid_command_code_counterexample :
    tools_call_cli defaultPolicy oracleOkEmpty
      { host := "10.0.0.1".data, command := "rm -rf /".data } =
      ({ status := "error".data, errCode := some ("invalid_request".data) },
        []) ∧
    some ("invalid_request".data) ≠ some ("invalid_command".data) := by
  exact ⟨rfl, by decide⟩

/-- Witness for C2: the amended statement evaluated on the `rm -rf /`
scenario. -/
theorem policy_rejection_response_witness :
    (tools_call_cli defaultPolicy oracleOkEmpty
      { host := "10.0.0.1".data, command := "rm -rf /".data }).1.status =
        "error".data ∧
    (tools_call_cli defaultPolicy oracleOkEmpty
      { host := "10.0.0.1".data, command := "rm -rf /".data }).1.errCode =
        some ("invalid_request".data) ∧
    (tools_call_cli defaultPolicy oracleOkEmpty
      { host := "10.0.0.1".data, command := "rm -rf /".data }).2 = [] :=
  policy_rejection_response defaultPolicy oracleOkEmpty
    { host := "10.0.0.1".data, command := "rm -rf /".data }
    ⟨"Command rejected by allowlist policy".data, rfl⟩

/-- `ArgsConfigBackup` (tools/system.py lines 25-28). -/
structure ArgsConfigBackup where
  host : List Char
  username : Option (List Char) := none
  port : Option Nat := some 22

/-- The part of `handle_config_backup`'s result the claims refer to. -/
structure ResultConfigBackup where
  host : List Char
  config : List Char
  size_bytes : Nat
  commands_executed : List (List Char)
  deriving Repr, DecidableEq

/-- `handle_config_backup` (tools/system.py lines 49-87): builds the
device, then passes the constant `write terminal` to `SSHRunner.run`
*without calling `sanitize_command`*. -/
def handle_config_backup (run : RunOracle) (args : ArgsConfigBackup) :
    Except PyExc ResultConfigBackup × List (List Char) :=
  match create_device_from_host args.host (args.port.getD 22) args.username with
  | .error e => (.error e, [])
  | .ok _device =>
    match run ("write terminal".data) with
    | .error m => (.error (.sshExecutionError m), ["write terminal".data])
    | .ok res =>
      (.ok { host := args.host, config := pyStrip res.stdout,
             size_bytes := (pyStrip res.stdout).length,
             commands_executed := ["write terminal".data] },
        ["write terminal".data])

/-! ## `tools/device.py` — `aos.port.discover` -/

/-- Python `str.split()` with no separator: whitespace-separated tokens,
empties removed. -/
def pySplitWsAux (fuel : Nat) (s : List Char) : List (List Char) :=
  match fuel, s.dropWhile isPyWs with
  | _, [] => []
  | 0, _ :: _ => []
  | fuel + 1, c :: cs =>
    ((c :: cs).takeWhile (fun x => !(isPyWs x))) ::
      pySplitWsAux fuel ((c :: cs).dropWhile (fun x => !(isPyWs x)))

def pySplitWs (s : List Char) : List (List Char) :=
  pySplitWsAux s.length s

/-- The dictionary key `cmd.split()[1] if len(cmd.split()) > 1 else cmd`
(tools/device.py line 243). -/
def pdKey (cmd : List Char) : List Char :=
  match (pySplitWs cmd).get? 1 with
  | some k => k
  | none => cmd

/-- The five command strings of `handle_port_discover`
(tools/device.py lines 230-236), in order. -/
def portDiscoverCommands (pid : List Char) : List (List Char) :=
  [ "show interfaces port ".data ++ pid,
    "show vlan port ".data ++ pid,
    "show mac-learning port ".data ++ pid,
    "show lldp remote-system port ".data ++ pid,
    "show lanpower port ".data ++ pid ]

/-- Match `key\s*[:\-]\s*(\S+)` case-insensitively at the head of `s`
(the `Admin State` / `Operational Status` / `Link State` extraction
patterns of tools/device.py lines 256-263). -/
def tryKeyValAt (key : List Char) (s : List Char) : Option (List Char) :=
  if ciEq (s.take key.length) key then
    match (s.drop key.length).dropWhile isPyWs with
    | c :: t2 =>
      if c = ':' || c = '-' then
        match (t2.dropWhile isPyWs).takeWhile (fun x => !(isPyWs x)) with
        | [] => none
        | cap => some cap
      else none
    | [] => none
  else none

/-- The first of several alternative keys matching at the head of `s`. -/
def tryKeysAt (keys : List (List Char)) (s : List Char) : Option (List Char) :=
  match keys with
  | [] => none
  | k :: ks =>
    match tryKeyValAt k s with
    | some cap => some cap
    | none => tryKeysAt ks s

/-- `re.search` over positions for the key-value patterns. -/
def searchKeyVal (keys : List (List Char)) : List Char → Option (List Char)
  | [] => none
  | c :: cs =>
    match tryKeysAt keys (c :: cs) with
    | some cap => some cap
    | none => searchKeyVal keys cs

/-- `ArgsPortDiscover` (tools/device.py lines 34-37). -/
structure ArgsPortDiscover where
  host : List Char
  port_id : List Char
  port : Option Nat := some 22

/-- The part of `handle_port_discover`'s result the claims refer to. -/
structure ResultPortDiscover where
  port_id : List Char
  admin_state : List Char
  oper_state : List Char
  commands_executed : List (List Char)
  deriving Repr, DecidableEq

/-- The command loop of `handle_port_discover` (tools/device.py lines
238-246): `sanitize_command` is called *outside* the `try`, so a sanitize
failure propagates out of the handler; `runner.run` failures are swallowed,
recording only successful commands in `commands_executed` (keyed stdout in
`results`).  The final component is every string passed to
`SSHRunner.run`. -/
def pdLoop (pol : CompiledCommandPolicy) (run : RunOracle) :
    List (List Char) →
    List (List Char × List Char) → List (List Char) → List (List Char) →
    Except PyExc (List (List Char × List Char) × List (List Char)) ×
      List (List Char)
  | [], results, executed, calls => (.ok (results, executed), calls)
  | cmd :: more, results, executed, calls =>
    match sanitize_command cmd pol with
    | .error m => (.error (.valueError m), calls)
    | .ok safe =>
      match run safe with
      | .ok res =>
        pdLoop pol run more (results ++ [(pdKey cmd, res.stdout)])
          (executed ++ [cmd]) (calls ++ [safe])
      | .error _ => pdLoop pol run more results executed (calls ++ [safe])

/-- Association lookup on the `results` dictionary (its five keys are
distinct, so insertion order is irrelevant). -/
def lookupA (l : List (List Char × List Char)) (k : List Char) :
    Option (List Char) :=
  match l with
  | [] => none
  | (k', v) :: rest => if k' = k then some v else lookupA rest k

/-- `handle_port_discover` (tools/device.py lines 215-281). -/
def handle_port_discover (pol : CompiledCommandPolicy) (run : RunOracle)
    (args : ArgsPortDiscover) :
    Except PyExc ResultPortDiscover × List (List Char) :=
  match create_device_from_host args.host (args.port.getD 22) none with
  | .error e => (.error e, [])
  | .ok _device =>
    match pdLoop pol run (portDiscoverCommands args.port_id) [] [] [] with
    | (.error e, calls) => (.error e, calls)
    | (.ok (results, executed), calls) =>
      let intf := (lookupA results ("interfaces".data)).getD []
      let admin := (searchKeyVal ["Admin State".data] intf).getD
        ("unknown".data)
      let oper := (searchKeyVal
        ["Operational Status".data, "Link State".data] intf).getD
        ("unknown".data)
      (.ok { port_id := args.port_id, admin_state := admin,
             oper_state := oper, commands_executed := executed }, calls)

/-- Any `show …` command over printable characters, ending in a
non-whitespace character and short enough, passes the default policy
unchanged. -/
theorem sanitize_default_show (body : List Char)
    (hchars : ∀ c ∈ body, 32 ≤ c.toNat)
    (hlast : ∃ b bs, body.reverse = b :: bs ∧ isPyWs b = false)
    (hlen : body.length + 5 ≤ 512) :
    sanitize_command ("show ".data ++ body) defaultPolicy =
      .ok ("show ".data ++ body) := by
  have hdw : ("show ".data ++ body).dropWhile isPyWs =
      "show ".data ++ body := by
    show List.dropWhile isPyWs ('s' :: ("how ".data ++ body)) = _
    rw [List.dropWhile_cons, show isPyWs 's' = false from by decide]
    simp
  have hrev : ("show ".data ++ body).reverse.dropWhile isPyWs =
      ("show ".data ++ body).reverse := by
    obtain ⟨b, bs, hb, hbws⟩ := hlast
    rw [List.reverse_append, hb, List.cons_append, List.dropWhile_cons, hbws]
    simp
  have hstrip : pyStrip ("show ".data ++ body) = "show ".data ++ body := by
    unfold pyStrip
    rw [hdw, hrev, List.reverse_reverse]
  have hge : ∀ x ∈ ("show ".data ++ body), 32 ≤ x.toNat := by
    intro x hx
    rcases List.mem_append.mp hx with hx | hx
    · fin_cases hx <;> decide
    · exact hchars x hx
  have hnomem : ¬ ('\n' ∈ body) :=
    fun hmem => absurd (hchars _ hmem) (by decide)
  have hallow : matchKwRe ("show".data) ("show ".data ++ body) = true := by
    unfold matchKwRe
    have hpre : ("show".data).isPrefixOf ("show ".data ++ body) = true := by
      rw [List.isPrefixOf_iff_prefix]
      show "show".data <+: "show".data ++ (' ' :: body)
      exact List.prefix_append _ _
    have hcont : body.contains '\n' = false := by simpa using hnomem
    have htail : reWsRestTail (("show ".data ++ body).drop
        ("show".data).length) = true := by
      show reWsRestTail (' ' :: body) = true
      simp [reWsRestTail, dollarOk, hcont,
        show isPyWs ' ' = true from by decide]
      exact .inl (.inl hnomem)
    rw [hpre, htail]
    rfl
  have hnot : ¬ sanitizeRejects ("show ".data ++ body) defaultPolicy := by
    unfold sanitizeRejects
    rw [hstrip]
    rintro (h | h | h | h | h | h)
    · simp at h
    · rw [List.length_append] at h
      have h5 : ("show ".data).length = 5 := rfl
      have hmax : defaultPolicy.max_command_length = 512 := rfl
      omega
    · obtain ⟨ch, hch, hlt, -⟩ := h
      exact absurd (hge ch hch) (by omega)
    · rcases h.2 with hmem | hmem <;>
        exact absurd (hge _ hmem) (by decide)
    · have := h (matchKwRe ("show".data))
        (show _ ∈ defaultPolicy.allow from List.mem_cons_self _ _)
      rw [hallow] at this
      exact absurd this (by decide)
    · obtain ⟨m, hm, -⟩ := h
      simp [defaultPolicy] at hm
  rw [sanitize_command_ok_of_not_rejects hnot, hstrip]

/-- A well-formed port identifier: nonempty, short, made of digits and
slashes (the `c/s/p` shape, e.g. `1/1/19`). -/
def pidOk (pid : List Char) : Prop :=
  pid ≠ [] ∧ pid.length ≤ 40 ∧ ∀ c ∈ pid, isDigitC c = true ∨ c = '/'

instance (pid : List Char) : Decidable (pidOk pid) := by
  unfold pidOk; infer_instance

theorem pid_chars_ge {pid : List Char} (h : pidOk pid) :
    ∀ c ∈ pid, 32 ≤ c.toNat := by
  intro c hcm
  rcases h.2.2 c hcm with hd | rfl
  · unfold isDigitC at hd
    simp only [Bool.and_eq_true, decide_eq_true_eq] at hd
    omega
  · decide

theorem pid_last_nonws {pid : List Char} (h : pidOk pid) :
    ∃ b bs, pid.reverse = b :: bs ∧ isPyWs b = false := by
  cases hrev : pid.reverse with
  | nil =>
    exact absurd (by simpa using congrArg List.reverse hrev) h.1
  | cons b bs =>
    refine ⟨b, bs, rfl, ?_⟩
    have hbmem : b ∈ pid := by
      have : b ∈ pid.reverse := by rw [hrev]; simp
      simpa using this
    rcases h.2.2 b hbmem with hd | rfl
    · unfold isDigitC at hd
      simp only [Bool.and_eq_true, decide_eq_true_eq] at hd
      simp only [isPyWs]
      simp only [Bool.or_eq_false_iff, decide_eq_false_iff_not]
      omega
    · decide

/-- A `show` command built from a printable middle part and a well-formed
port identifier passes the default policy unchanged. -/
theorem sanitize_show_mid_pid (mid pid : List Char)
    (hmid : ∀ c ∈ mid, 32 ≤ c.toNat) (hmidlen : mid.length ≤ 60)
    (hpid : pidOk pid) :
    sanitize_command ("show ".data ++ (mid ++ pid)) defaultPolicy =
      .ok ("show ".data ++ (mid ++ pid)) := by
  apply sanitize_default_show
  · intro c hc
    rcases List.mem_append.mp hc with hc | hc
    · exact hmid c hc
    · exact pid_chars_ge hpid c hc
  · obtain ⟨b, bs, hb, hbws⟩ := pid_last_nonws hpid
    refine ⟨b, bs ++ mid.reverse, ?_, hbws⟩
    rw [List.reverse_append, hb, List.cons_append]
  · rw [List.length_append]
    have := hpid.2.1
    omega

/-- Every command of `handle_port_discover` is accepted unchanged by the
default policy. -/
theorem sanitize_pd_cmds (pid : List Char) (h : pidOk pid) :
    ∀ cmd ∈ portDiscoverCommands pid,
      sanitize_command cmd defaultPolicy = .ok cmd := by
  intro cmd hcmd
  simp only [portDiscoverCommands, List.mem_cons,
    List.not_mem_nil, or_false] at hcmd
  rcases hcmd with rfl | rfl | rfl | rfl | rfl
  · exact sanitize_show_mid_pid ("interfaces port ".data) pid
      (by intro c hc; fin_cases hc <;> decide) (by decide) h
  · exact sanitize_show_mid_pid ("vlan port ".data) pid
      (by intro c hc; fin_cases hc <;> decide) (by decide) h
  · exact sanitize_show_mid_pid ("mac-learning port ".data) pid
      (by intro c hc; fin_cases hc <;> decide) (by decide) h
  · exact sanitize_show_mid_pid ("lldp remote-system port ".data) pid
      (by intro c hc; fin_cases hc <;> decide) (by decide) h
  · exact sanitize_show_mid_pid ("lanpower port ".data) pid
      (by intro c hc; fin_cases hc <;> decide) (by decide) h

/-- When every command sanitizes to itself, the discovery loop runs all of
them: `commands_executed` collects exactly the commands whose run
succeeded, failures are swallowed, and every command reaches the runner. -/
theorem pdLoop_all_ok (pol : CompiledCommandPolicy) (run : RunOracle) :
    ∀ (cmds : List (List Char)) results executed calls,
      (∀ c ∈ cmds, sanitize_command c pol = .ok c) →
      pdLoop pol run cmds results executed calls =
        (.ok (results ++ cmds.filterMap (fun c =>
            match run c with
            | .ok r => some (pdKey c, r.stdout)
            | .error _ => none),
          executed ++ cmds.filter (fun c => (run c).isOk)),
         calls ++ cmds) := by
  intro cmds
  induction cmds with
  | nil => intro r e ca _; simp [pdLoop]
  | cons cmd more ih =>
    intro r e ca hall
    have hc := hall cmd (by simp)
    cases hrun : run cmd with
    | ok res =>
      simp only [pdLoop, hc, hrun]
      rw [ih _ _ _ (fun c hcm => hall c (by simp [hcm]))]
      simp [hrun, List.filter_cons, List.filterMap_cons, Except.isOk,
        Except.toBool, List.append_assoc]
    | error m =>
      simp only [pdLoop, hc, hrun]
      rw [ih _ _ _ (fun c hcm => hall c (by simp [hcm]))]
      simp [hrun, List.filter_cons, List.filterMap_cons, Except.isOk,
        Except.toBool, List.append_assoc]

/-- C6 (amended): with a well-formed `c/s/p` port id, `aos.port.discover`
sends exactly the five commands `show interfaces port <id>`,
`show vlan port <id>`, `show mac-learning port <id>`,
`show lldp remote-system port <id>`, `show lanpower port <id>` to the
runner, in that order; every command is optional — a failure never aborts
the handler — and `commands_executed` lists exactly the commands that
succeeded (all five when every run succeeds). -/
theorem port_discover_spec (run : RunOracle) (host pid : List Char)
    (h : pidOk pid) :
    ∃ r, (handle_port_discover defaultPolicy run
        { host := host, port_id := pid }).1 = .ok r ∧
      r.commands_executed =
        (portDiscoverCommands pid).filter (fun c => (run c).isOk) ∧
      (handle_port_discover defaultPolicy run
        { host := host, port_id := pid }).2 = portDiscoverCommands pid := by
  have hall := sanitize_pd_cmds pid h
  unfold handle_port_discover
  rw [show create_device_from_host host ((some 22).getD 22) none =
    .ok { id := "dynamic-".data ++ host, host := host, port := 22,
          username := none, auth := none } from rfl]
  rw [pdLoop_all_ok defaultPolicy run _ [] [] [] hall]
  exact ⟨_, rfl, by simp, by simp⟩

/-- A runner on which the first discovery command fails and the rest
succeed. -/
def oracleFailFirst : RunOracle := fun c =>
  if c = "show interfaces port 1/1/19".data then
    .error ("connection reset".data)
  else
    .ok { stdout := [], stderr := [], exit_status := some 0,
          truncated := false }

/-- C6 counterexample: with every command succeeding, the handler executes
the five commands above — not the five `show interfaces <id> status`-style
commands of the claim — `commands_executed` has length 5, not 6, no
`show lanpower slot c/s` is derived, and (by `port_discover_spec`'s
witness) a failing required-looking command does not abort the handler. -/
theorem port_discover_counterexample :
    (handle_port_discover defaultPolicy oracleOkEmpty
      { host := "10.0.0.1".data, port_id := "1/1/19".data }).1 =
      .ok { port_id := "1/1/19".data, admin_state := "unknown".data,
            oper_state := "unknown".data,
            commands_executed :=
              [ "show interfaces port 1/1/19".data,
                "show vlan port 1/1/19".data,
                "show mac-learning port 1/1/19".data,
                "show lldp remote-system port 1/1/19".data,
                "show lanpower port 1/1/19".data ] } ∧
    (5 : Nat) ≠ 6 := by
  exact ⟨rfl, by decide⟩

/-- Witness for C6: with the first command failing, the handler still
returns ok and records the remaining four commands. -/
theorem port_discover_spec_witness :
    ∃ r, (handle_port_discover defaultPolicy oracleFailFirst
        { host := "10.0.0.1".data, port_id := "1/1/19".data }).1 = .ok r ∧
      r.commands_executed = (portDiscoverCommands ("1/1/19".data)).filter
        (fun c => (oracleFailFirst c).isOk) ∧
      (handle_port_discover defaultPolicy oracleFailFirst
        { host := "10.0.0.1".data, port_id := "1/1/19".data }).2 =
        portDiscoverCommands ("1/1/19".data) :=
  port_discover_spec oracleFailFirst ("10.0.0.1".data) ("1/1/19".data)
    (by refine ⟨by decide, by decide, by decide⟩)

/-- Every command string the discovery loop hands to the runner is an
output of `sanitize_command`. -/
theorem pdLoop_calls_sanitized (pol : CompiledCommandPolicy)
    (run : RunOracle) :
    ∀ (cmds : List (List Char)) results executed calls c,
      c ∈ (pdLoop pol run cmds results executed calls).2 →
      c ∈ calls ∨ ∃ s, sanitize_command s pol = .ok c := by
  intro cmds
  induction cmds with
  | nil =>
    intro r e ca c hc
    exact .inl (by simpa [pdLoop] using hc)
  | cons cmd more ih =>
    intro r e ca c hc
    cases hs : sanitize_command cmd pol with
    | error m =>
      simp only [pdLoop, hs] at hc
      exact .inl hc
    | ok safe =>
      cases hrun : run safe with
      | ok res =>
        simp only [pdLoop, hs, hrun] at hc
        rcases ih _ _ _ c hc with hca | hex
        · rcases List.mem_append.mp hca with hca | hca
          · exact .inl hca
          · have hceq : c = safe := by simpa using hca
            exact .inr ⟨cmd, by rw [hs, hceq]⟩
        · exact .inr hex
      | error m =>
        simp only [pdLoop, hs, hrun] at hc
        rcases ih _ _ _ c hc with hca | hex
        · rcases List.mem_append.mp hca with hca | hca
          · exact .inl hca
          · have hceq : c = safe := by simpa using hca
            exact .inr ⟨cmd, by rw [hs, hceq]⟩
        · exact .inr hex

/-- C1 (amended): for `aos.cli.readonly` and `aos.port.discover`, every
command string passed to `SSHRunner.run` is the output of
`sanitize_command` under the compiled policy on some argument-derived
string.  (For `aos.config.backup` this fails — see the counterexample.) -/
theorem sanitize_then_run_spec :
    (∀ pol run args c, c ∈ (handle_cli_readonly pol run args).2 →
      ∃ s, sanitize_command s pol = .ok c) ∧
    (∀ pol run args c, c ∈ (handle_port_discover pol run args).2 →
      ∃ s, sanitize_command s pol = .ok c) := by
  constructor
  · intro pol run args c hc
    unfold handle_cli_readonly at hc
    cases hdev : create_device_from_host args.host (args.port.getD 22)
        args.username with
    | error e => simp [hdev] at hc
    | ok device =>
      cases hs : sanitize_command args.command pol with
      | error m => simp [hdev, hs] at hc
      | ok cmd =>
        cases hrun : run cmd with
        | ok res =>
          simp only [hdev, hs, hrun, List.mem_singleton] at hc
          exact ⟨args.command, hc ▸ hs⟩
        | error m =>
          simp only [hdev, hs, hrun, List.mem_singleton] at hc
          exact ⟨args.command, hc ▸ hs⟩
  · intro pol run args c hc
    unfold handle_port_discover at hc
    cases hdev : create_device_from_host args.host (args.port.getD 22)
        none with
    | error e => simp [hdev] at hc
    | ok device =>
      simp only [hdev] at hc
      rcases hpd : pdLoop pol run (portDiscoverCommands args.port_id)
          [] [] [] with ⟨st, calls⟩
      have hcalls : c ∈ calls := by
        cases st with
        | ok pr =>
          obtain ⟨results, executed⟩ := pr
          simpa [hpd] using hc
        | error e => simpa [hpd] using hc
      have := pdLoop_calls_sanitized pol run
        (portDiscoverCommands args.port_id) [] [] [] c (by rw [hpd]; exact hcalls)
      rcases this with hnil | hex
      · simp at hnil
      · exact hex

/-- C1 counterexample: `aos.config.backup` passes the constant
`write terminal` to `SSHRunner.run`, and under the default compiled policy
no input string sanitizes to `write terminal` (every sanitize output
matches an allow regex, and `write terminal` matches none). -/
theorem sanitize_then_run_counterexample :
    (handle_config_backup oracleOkEmpty { host := "10.0.0.1".data }).2 =
      ["write terminal".data] ∧
    ∀ s, sanitize_command s defaultPolicy ≠ .ok ("write terminal".data) := by
  constructor
  · rfl
  · intro s hs
    have hallow := sanitize_ok_allow s defaultPolicy _ hs
    exact absurd hallow (by decide)

/-- Witness for C1: the amended statement evaluated on concrete calls of
both handlers. -/
theorem sanitize_then_run_spec_witness :
    (∃ s, sanitize_command s defaultPolicy = .ok ("show vlan".data)) ∧
    (∃ s, sanitize_command s defaultPolicy =
      .ok ("show vlan port 1/1/19".data)) :=
  ⟨sanitize_then_run_spec.1 defaultPolicy oracleOkEmpty
      { host := "10.0.0.1".data, command := "show vlan".data }
      ("show vlan".data) (by decide),
    sanitize_then_run_spec.2 defaultPolicy oracleOkEmpty
      { host := "10.0.0.1".data, port_id := "1/1/19".data }
      ("show vlan port 1/1/19".data) (by decide)⟩

/-! ## `tools/network.py` — `aos.mac.lookup` -/

/-- The character class `[0-9a-fA-F:]`. -/
def isHexColon (c : Char) : Bool :=
  isDigitC c || (97 ≤ c.toNat && c.toNat ≤ 102) ||
  (65 ≤ c.toNat && c.toNat ≤ 70) || c = ':'

/-- Python `\w` on ASCII input: letters, digits, underscore. -/
def isWordC (c : Char) : Bool :=
  isDigitC c || (97 ≤ c.toNat && c.toNat ≤ 122) ||
  (65 ≤ c.toNat && c.toNat ≤ 90) || c = '_'

/-- Python `str.split(sep)` for a single-character separator, keeping empty
fields (so `"".split("\n") == [""]`). -/
def pySplitOn (sep : Char) : List Char → List (List Char)
  | [] => [[]]
  | c :: cs =>
    if c = sep then [] :: pySplitOn sep cs
    else
      match pySplitOn sep cs with
      | [] => [[c]]
      | t :: ts => (c :: t) :: ts

/-- Python `str.replace(a, b)` for single characters. -/
def pyReplaceChar (a b : Char) (s : List Char) : List Char :=
  s.map (fun c => if c = a then b else c)

/-- Python `str.lower()` on ASCII text. -/
def pyLowerStr (s : List Char) : List Char :=
  s.map pyLowerChar

/-- `\s+`: require at least one whitespace character, return the rest. -/
def reqWs (s : List Char) : Option (List Char) :=
  if (s.takeWhile isPyWs).isEmpty then none else some (s.dropWhile isPyWs)

/-- A captured maximal nonempty run of a character class (the behaviour of
a greedy `(cls+)` followed by a pattern element disjoint from `cls`). -/
def reqRun (p : Char → Bool) (s : List Char) :
    Option (List Char × List Char) :=
  if (s.takeWhile p).isEmpty then none
  else some (s.takeWhile p, s.dropWhile p)

/-- A case-insensitive literal; the capture keeps the input's case. -/
def reqCi (lit : List Char) (s : List Char) :
    Option (List Char × List Char) :=
  if ciEq (s.take lit.length) lit then
    some (s.take lit.length, s.drop lit.length)
  else none

/-- A single literal character. -/
def reqChar (a : Char) : List Char → Option (List Char)
  | c :: t => if c = a then some t else none
  | [] => none

/-- Match the OS6860 MAC-learning pattern
`VLAN\s+(\d+)\s+([0-9a-fA-F:]{17})\s+(dynamic|static)\s+\w+\s+(\S+)`
(network.py line 83, with `re.IGNORECASE`) at the head of `s`, returning
the captures (vlan digits, mac, type, port). -/
def tryOS6860At (s : List Char) :
    Option (List Char × List Char × List Char × List Char) :=
  match reqCi ("vlan".data) s with
  | none => none
  | some (_, s1) =>
    match reqWs s1 with
    | none => none
    | some s2 =>
      match reqRun isDigitC s2 with
      | none => none
      | some (d, s3) =>
        match reqWs s3 with
        | none => none
        | some s4 =>
          if (s4.take 17).length = 17 && (s4.take 17).all isHexColon then
            match reqWs (s4.drop 17) with
            | none => none
            | some s5 =>
              match (match reqCi ("dynamic".data) s5 with
                     | some r => some r
                     | none => reqCi ("static".data) s5) with
              | none => none
              | some (typ, s6) =>
                match reqWs s6 with
                | none => none
                | some s7 =>
                  match reqRun isWordC s7 with
                  | none => none
                  | some (_, s8) =>
                    match reqWs s8 with
                    | none => none
                    | some s9 =>
                      match reqRun (fun c => !(isPyWs c)) s9 with
                      | none => none
                      | some (port, _) => some (d, s4.take 17, typ, port)
          else none

/-- Match the standard MAC-learning pattern
`([0-9a-fA-F:]{17})\s+(\d+)\s+(\S+)\s+(dynamic|static)` (network.py line
93, with `re.IGNORECASE`) at the head of `s`, returning (mac, vlan digits,
port, type). -/
def tryStdAt (s : List Char) :
    Option (List Char × List Char × List Char × List Char) :=
  if (s.take 17).length = 17 && (s.take 17).all isHexColon then
    match reqWs (s.drop 17) with
    | none => none
    | some s1 =>
      match reqRun isDigitC s1 with
      | none => none
      | some (d, s2) =>
        match reqWs s2 with
        | none => none
        | some s3 =>
          match reqRun (fun c => !(isPyWs c)) s3 with
          | none => none
          | some (port, s4) =>
            match reqWs s4 with
            | none => none
            | some s5 =>
              match (match reqCi ("dynamic".data) s5 with
                     | some r => some r
                     | none => reqCi ("static".data) s5) with
              | none => none
              | some (typ, _) => some (s.take 17, d, port, typ)
  else none

/-- Match the ARP pattern
`(\d+\.\d+\.\d+\.\d+)\s+([0-9a-fA-F:]{17})\s+(\d+)\s+(\S+)` (network.py
line 109) at the head of `s`, returning (ip, mac, vlan digits, port). -/
def tryArpAt (s : List Char) :
    Option (List Char × List Char × List Char × List Char) := do
  let (d1, s) ← reqRun isDigitC s
  let s ← reqChar '.' s
  let (d2, s) ← reqRun isDigitC s
  let s ← reqChar '.' s
  let (d3, s) ← reqRun isDigitC s
  let s ← reqChar '.' s
  let (d4, s) ← reqRun isDigitC s
  let ip := d1 ++ '.' :: d2 ++ '.' :: d3 ++ '.' :: d4
  let s ← reqWs s
  if (s.take 17).length = 17 && (s.take 17).all isHexColon then
    let mac := s.take 17
    let s := s.drop 17
    let s ← reqWs s
    let (d, s) ← reqRun isDigitC s
    let s ← reqWs s
    let (port, _) ← reqRun (fun c => !(isPyWs c)) s
    some (ip, mac, d, port)
  else none

/-- `re.search`: try the anchored matcher at every position, left to
right. -/
def reSearch (f : List Char → Option α) : List Char → Option α
  | [] => f []
  | c :: cs =>
    match f (c :: cs) with
    | some r => some r
    | none => reSearch f cs

theorem reSearch_some {f : List Char → Option α} :
    ∀ {s : List Char} {r : α}, reSearch f s = some r →
      ∃ t, t <:+ s ∧ f t = some r := by
  intro s
  induction s with
  | nil => exact fun h => ⟨[], List.suffix_refl _, h⟩
  | cons c cs ih =>
    intro r h
    cases hf : f (c :: cs) with
    | some r' =>
      have he : reSearch f (c :: cs) = some r' := by
        unfold reSearch; rw [hf]
      rw [he] at h
      cases h
      exact ⟨c :: cs, List.suffix_refl _, hf⟩
    | none =>
      have he : reSearch f (c :: cs) = reSearch f cs := by
        unfold reSearch
        rw [hf]
        dsimp only
        exact reSearch.eq_def f cs
      rw [he] at h
      obtain ⟨t, ht, hft⟩ := ih h
      exact ⟨t, ht.trans (List.suffix_cons c cs), hft⟩

theorem reqWs_some {s t : List Char} (h : reqWs s = some t) :
    t = s.dropWhile isPyWs := by
  unfold reqWs at h
  by_cases hc : (s.takeWhile isPyWs).isEmpty
  · rw [if_pos hc] at h; cases h
  · rw [if_neg hc] at h; exact (Option.some.inj h).symm

theorem reqRun_some {p : Char → Bool} {s cap t : List Char}
    (h : reqRun p s = some (cap, t)) :
    cap = s.takeWhile p ∧ t = s.dropWhile p ∧ cap ≠ [] := by
  unfold reqRun at h
  by_cases hc : (s.takeWhile p).isEmpty
  · rw [if_pos hc] at h; cases h
  · rw [if_neg hc] at h
    injection h with h'
    injection h' with h1 h2
    refine ⟨h1.symm, h2.symm, ?_⟩
    intro hnil
    rw [← h1] at hnil
    rw [hnil] at hc
    exact hc rfl

theorem reqCi_some {lit s cap t : List Char}
    (h : reqCi lit s = some (cap, t)) :
    cap = s.take lit.length ∧ ciEq cap lit = true := by
  unfold reqCi at h
  split at h
  · next hc =>
    injection h with h'
    injection h' with h1 h2
    exact ⟨h1.symm, h1 ▸ hc⟩
  · cases h

theorem altCi_some {s typ t : List Char}
    (h : (match reqCi ("dynamic".data) s with
          | some r => some r
          | none => reqCi ("static".data) s) = some (typ, t)) :
    ciEq typ ("dynamic".data) = true ∨ ciEq typ ("static".data) = true := by
  cases hd : reqCi ("dynamic".data) s with
  | some r =>
    obtain ⟨a, b⟩ := r
    rw [hd] at h
    injection h with h'
    injection h' with h1 h2
    rw [← h1]
    exact .inl (reqCi_some hd).2
  | none =>
    rw [hd] at h
    exact .inr (reqCi_some h).2

/-- ciEq rewrites both sides to their lowercase images. -/
theorem ciEq_lower {a b : List Char} (h : ciEq a b = true) :
    pyLowerStr a = pyLowerStr b := by
  unfold ciEq at h
  exact_mod_cast of_decide_eq_true h

/-- A successful OS6860 match captures a 17-character hex-and-colon MAC
(as written in the input) and a case variant of dynamic or static. -/
theorem tryOS6860At_shape {s d mac typ port : List Char}
    (h : tryOS6860At s = some (d, mac, typ, port)) :
    mac.length = 17 ∧ mac.all isHexColon = true ∧
    (ciEq typ ("dynamic".data) = true ∨ ciEq typ ("static".data) = true) := by
  unfold tryOS6860At at h
  cases h1 : reqCi ("vlan".data) s with
  | none => rw [h1] at h; cases h
  | some p1 =>
    obtain ⟨g1, s1⟩ := p1
    rw [h1] at h
    simp only at h
    cases h2 : reqWs s1 with
    | none => rw [h2] at h; cases h
    | some s2 =>
      rw [h2] at h
      simp only at h
      cases h3 : reqRun isDigitC s2 with
      | none => rw [h3] at h; cases h
      | some p3 =>
        obtain ⟨d', s3⟩ := p3
        rw [h3] at h
        simp only at h
        cases h4 : reqWs s3 with
        | none => rw [h4] at h; cases h
        | some s4 =>
          rw [h4] at h
          simp only at h
          split at h
          · next hc =>
            simp only [Bool.and_eq_true, decide_eq_true_eq] at hc
            cases h5 : reqWs (s4.drop 17) with
            | none => rw [h5] at h; cases h
            | some s5 =>
              rw [h5] at h
              simp only at h
              cases h6 : (match reqCi ("dynamic".data) s5 with
                          | some r => some r
                          | none => reqCi ("static".data) s5) with
              | none => rw [h6] at h; cases h
              | some p6 =>
                obtain ⟨typ', s6⟩ := p6
                rw [h6] at h
                simp only at h
                cases h7 : reqWs s6 with
                | none => rw [h7] at h; cases h
                | some s7 =>
                  rw [h7] at h
                  simp only at h
                  cases h8 : reqRun isWordC s7 with
                  | none => rw [h8] at h; cases h
                  | some p8 =>
                    obtain ⟨g8, s8⟩ := p8
                    rw [h8] at h
                    simp only at h
                    cases h9 : reqWs s8 with
                    | none => rw [h9] at h; cases h
                    | some s9 =>
                      rw [h9] at h
                      simp only at h
                      cases h10 : reqRun (fun c => !(isPyWs c)) s9 with
                      | none => rw [h10] at h; cases h
                      | some p10 =>
                        obtain ⟨port', s10⟩ := p10
                        rw [h10] at h
                        simp only at h
                        injection h with h'
                        injection h' with hd' h'
                        injection h' with hmac h'
                        injection h' with htyp hport
                        subst hmac htyp
                        exact ⟨hc.1, hc.2, altCi_some h6⟩
          · cases h

/-- A successful standard-pattern match captures a 17-character
hex-and-colon MAC and a case variant of dynamic or static. -/
theorem tryStdAt_shape {s mac d port typ : List Char}
    (h : tryStdAt s = some (mac, d, port, typ)) :
    mac.length = 17 ∧ mac.all isHexColon = true ∧
    (ciEq typ ("dynamic".data) = true ∨ ciEq typ ("static".data) = true) := by
  unfold tryStdAt at h
  split at h
  · next hc =>
    simp only [Bool.and_eq_true, decide_eq_true_eq] at hc
    cases h1 : reqWs (s.drop 17) with
    | none => rw [h1] at h; cases h
    | some s1 =>
      rw [h1] at h
      simp only at h
      cases h2 : reqRun isDigitC s1 with
      | none => rw [h2] at h; cases h
      | some p2 =>
        obtain ⟨d', s2⟩ := p2
        rw [h2] at h
        simp only at h
        cases h3 : reqWs s2 with
        | none => rw [h3] at h; cases h
        | some s3 =>
          rw [h3] at h
          simp only at h
          cases h4 : reqRun (fun c => !(isPyWs c)) s3 with
          | none => rw [h4] at h; cases h
          | some p4 =>
            obtain ⟨port', s4⟩ := p4
            rw [h4] at h
            simp only at h
            cases h5 : reqWs s4 with
            | none => rw [h5] at h; cases h
            | some s5 =>
              rw [h5] at h
              simp only at h
              cases h6 : (match reqCi ("dynamic".data) s5 with
                          | some r => some r
                          | none => reqCi ("static".data) s5) with
              | none => rw [h6] at h; cases h
              | some p6 =>
                obtain ⟨typ', s6⟩ := p6
                rw [h6] at h
                simp only at h
                injection h with h'
                injection h' with hmac h'
                injection h' with hd' h'
                injection h' with hport htyp
                subst hmac htyp
                exact ⟨hc.1, hc.2, altCi_some h6⟩
  · cases h

/-- One entry of `aos.mac.lookup`'s `entries` list (dict literals at
network.py lines 86-89, 96-99, 112-115; `typ` embeds the `"type"` key). -/
structure MacEntryE where
  ip_address : Option (List Char) := none
  mac_address : List Char
  vlan : Nat
  port : List Char
  typ : List Char
  deriving Repr, DecidableEq

/-- Per-line entry extraction of the MAC branch (network.py lines 81-99):
the OS6860 pattern first (a hit `continue`s past the standard pattern),
then the standard pattern. -/
def macLineEntry (line : List Char) : Option MacEntryE :=
  match reSearch tryOS6860At line with
  | some (d, mac, typ, port) =>
    some { mac_address := mac, vlan := natValue d, port := port,
           typ := pyLowerStr typ }
  | none =>
    match reSearch tryStdAt line with
    | some (mac, d, port, typ) =>
      some { mac_address := mac, vlan := natValue d, port := port,
             typ := pyLowerStr typ }
    | none => none

/-- Per-line entry extraction of the ARP branch (network.py lines
108-115). -/
def arpLineEntry (line : List Char) : Option MacEntryE :=
  match reSearch tryArpAt line with
  | some (ip, mac, d, port) =>
    some { ip_address := some ip, mac_address := mac, vlan := natValue d,
           port := port, typ := "arp".data }
  | none => none

/-- Per-line entry extraction of the VLAN-filter branch (network.py lines
125-144): both patterns, locally filtered by the requested VLAN; an OS6860
hit `continue`s even when filtered out. -/
def vlanLineEntry (vid : Nat) (line : List Char) : Option MacEntryE :=
  match reSearch tryOS6860At line with
  | some (d, mac, typ, port) =>
    if natValue d = vid then
      some { mac_address := mac, vlan := natValue d, port := port,
             typ := pyLowerStr typ }
    else none
  | none =>
    match reSearch tryStdAt line with
    | some (mac, d, port, typ) =>
      if natValue d = vid then
        some { mac_address := mac, vlan := natValue d, port := port,
               typ := pyLowerStr typ }
      else none
    | none => none

/-- The unfiltered branch (network.py lines 153-162): OS6860 pattern only,
stopping once 100 entries are collected. -/
def collectLimited : List (List Char) → List MacEntryE → List MacEntryE
  | [], acc => acc
  | l :: ls, acc =>
    if 100 ≤ acc.length then acc
    else
      match reSearch tryOS6860At l with
      | some (d, mac, typ, port) =>
        let e : MacEntryE := { mac_address := mac, vlan := natValue d,
                               port := port, typ := pyLowerStr typ }
        collectLimited ls (acc ++ [e])
      | none => collectLimited ls acc

/-- `ArgsMacLookup` (network.py lines 28-33). -/
structure ArgsMacLookup where
  host : List Char
  mac_address : Option (List Char) := none
  ip_address : Option (List Char) := none
  vlan_id : Option Nat := none
  port : Option Nat := some 22

/-- The part of `handle_mac_lookup`'s result the claims refer to. -/
structure ResultMacLookup where
  host : List Char
  entries : List MacEntryE
  total_found : Nat
  commands_executed : List (List Char)
  deriving Repr, DecidableEq

/-- Python truthiness of an optional string. -/
def optStrTruthy : Option (List Char) → Bool
  | some s => !s.isEmpty
  | none => false

/-- Python truthiness of an optional integer (`0` is falsy). -/
def optNatTruthy : Option Nat → Bool
  | some n => n != 0
  | none => false

/-- One branch of `handle_mac_lookup`: sanitize the command (a `ValueError`
propagates), run it (an `SSHExecutionError` propagates), then extract the
entries from the stdout lines.  Note network.py appends the *pre-sanitize*
`cmd` to `commands_executed` while `runner.run` receives the sanitized
string. -/
def macLookupBranch (pol : CompiledCommandPolicy) (run : RunOracle)
    (cmd : List Char) (extract : List Char → List MacEntryE) :
    Except PyExc (List MacEntryE × List (List Char)) × List (List Char) :=
  match sanitize_command cmd pol with
  | .error m => (.error (.valueError m), [])
  | .ok safe =>
    match run safe with
    | .error m => (.error (.sshExecutionError m), [safe])
    | .ok res => (.ok (extract res.stdout, [cmd]), [safe])

/-- `handle_mac_lookup` (network.py lines 57-184): the four lookup
conditionals in source order; the MAC argument is normalised with
`.replace("-", ":").lower()` before being embedded in the command. -/
def handle_mac_lookup (pol : CompiledCommandPolicy) (run : RunOracle)
    (args : ArgsMacLookup) :
    Except PyExc ResultMacLookup × List (List Char) :=
  match create_device_from_host args.host (args.port.getD 22) none with
  | .error e => (.error e, [])
  | .ok _device =>
    match (if optStrTruthy args.mac_address then
        macLookupBranch pol run
          ("show mac-learning mac ".data ++
            pyLowerStr (pyReplaceChar '-' ':' (args.mac_address.getD [])))
          (fun out => (pySplitOn '\n' out).filterMap macLineEntry)
      else (.ok ([], []), [])) with
    | (.error e, t1) => (.error e, t1)
    | (.ok (e1, c1), t1) =>
      match (if optStrTruthy args.ip_address then
          macLookupBranch pol run
            ("show arp ".data ++ args.ip_address.getD [])
            (fun out => (pySplitOn '\n' out).filterMap arpLineEntry)
        else (.ok ([], []), [])) with
      | (.error e, t2) => (.error e, t1 ++ t2)
      | (.ok (e2, c2), t2) =>
        match (if optNatTruthy args.vlan_id &&
            !(optStrTruthy args.mac_address) &&
            !(optStrTruthy args.ip_address) then
            macLookupBranch pol run ("show mac-learning domain vlan".data)
              (fun out => (pySplitOn '\n' out).filterMap
                (vlanLineEntry (args.vlan_id.getD 0)))
          else (.ok ([], []), [])) with
        | (.error e, t3) => (.error e, t1 ++ t2 ++ t3)
        | (.ok (e3, c3), t3) =>
          match (if !(optStrTruthy args.mac_address) &&
              !(optStrTruthy args.ip_address) &&
              !(optNatTruthy args.vlan_id) then
              macLookupBranch pol run
                ("show mac-learning domain vlan".data)
                (fun out => collectLimited (pySplitOn '\n' out) [])
            else (.ok ([], []), [])) with
          | (.error e, t4) => (.error e, t1 ++ t2 ++ t3 ++ t4)
          | (.ok (e4, c4), t4) =>
            (.ok { host := args.host, entries := e1 ++ e2 ++ e3 ++ e4,
                   total_found := (e1 ++ e2 ++ e3 ++ e4).length,
                   commands_executed := c1 ++ c2 ++ c3 ++ c4 },
              t1 ++ t2 ++ t3 ++ t4)

theorem pyLowerChar_not_upper (y : Char) :
    ¬(65 ≤ (pyLowerChar y).toNat ∧ (pyLowerChar y).toNat ≤ 90) := by
  unfold pyLowerChar
  split
  · next hcond =>
    simp only [Bool.and_eq_true, decide_eq_true_eq] at hcond
    rw [toNat_ofNat_valid _ (by omega)]
    omega
  · next hcond =>
    simp only [Bool.and_eq_true, decide_eq_true_eq] at hcond
    intro hup
    exact hcond ⟨by omega, by omega⟩

theorem pyLowerChar_ne_dash {y : Char} (hy : y ≠ '-') :
    pyLowerChar y ≠ '-' := by
  unfold pyLowerChar
  split
  · next hcond =>
    simp only [Bool.and_eq_true, decide_eq_true_eq] at hcond
    intro hEq
    have ht := congrArg Char.toNat hEq
    rw [toNat_ofNat_valid _ (by omega)] at ht
    have h45 : ('-').toNat = 45 := rfl
    rw [h45] at ht
    omega
  · exact hy

/-- The `.replace("-", ":").lower()` normalisation leaves no uppercase
letter and no dash in the MAC argument. -/
theorem normalized_mac_chars (m : List Char) :
    ∀ c ∈ pyLowerStr (pyReplaceChar '-' ':' m),
      ¬(65 ≤ c.toNat ∧ c.toNat ≤ 90) ∧ c ≠ '-' := by
  intro c hc
  unfold pyLowerStr pyReplaceChar at hc
  rw [List.mem_map] at hc
  obtain ⟨z, hz, rfl⟩ := hc
  rw [List.mem_map] at hz
  obtain ⟨x, _, rfl⟩ := hz
  refine ⟨pyLowerChar_not_upper _, pyLowerChar_ne_dash ?_⟩
  by_cases hx : x = '-'
  · rw [if_pos hx]
    decide
  · rw [if_neg hx]
    exact hx

/-- Every entry produced by a MAC-branch line has a 17-character
hex-and-colon MAC address (case preserved from the device output) and a
lowercased type equal to dynamic or static. -/
theorem macLineEntry_shape {line : List Char} {e : MacEntryE}
    (h : macLineEntry line = some e) :
    e.mac_address.length = 17 ∧ e.mac_address.all isHexColon = true ∧
    (e.typ = "dynamic".data ∨ e.typ = "static".data) := by
  unfold macLineEntry at h
  cases h1 : reSearch tryOS6860At line with
  | some r =>
    obtain ⟨d, mac, typ, port⟩ := r
    rw [h1] at h
    simp only at h
    injection h with h'
    subst h'
    obtain ⟨t, _, hft⟩ := reSearch_some h1
    obtain ⟨hl, ha, hci⟩ := tryOS6860At_shape hft
    refine ⟨hl, ha, ?_⟩
    cases hci with
    | inl hdyn => exact .inl ((ciEq_lower hdyn).trans (by decide))
    | inr hsta => exact .inr ((ciEq_lower hsta).trans (by decide))
  | none =>
    rw [h1] at h
    simp only at h
    cases h2 : reSearch tryStdAt line with
    | some r =>
      obtain ⟨mac, d, port, typ⟩ := r
      rw [h2] at h
      simp only at h
      injection h with h'
      subst h'
      obtain ⟨t, _, hft⟩ := reSearch_some h2
      obtain ⟨hl, ha, hci⟩ := tryStdAt_shape hft
      refine ⟨hl, ha, ?_⟩
      cases hci with
      | inl hdyn => exact .inl ((ciEq_lower hdyn).trans (by decide))
      | inr hsta => exact .inr ((ciEq_lower hsta).trans (by decide))
    | none =>
      rw [h2] at h
      cases h

/-- An oracle whose every command returns the same MAC-learning table line
twice: the device reports the MAC in uppercase. -/
def macDupOracle : RunOracle := fun _ =>
  .ok { stdout :=
          ("VLAN    1098   70:4C:A5:50:45:CE    dynamic     bridging      1/1/24\nVLAN    1098   70:4C:A5:50:45:CE    dynamic     bridging      1/1/24").data,
        stderr := [], exit_status := some 0, truncated := false }

/-- The entry `handle_mac_lookup` extracts from that line: the MAC keeps
the device's uppercase spelling. -/
def macDupEntry : MacEntryE :=
  { mac_address := "70:4C:A5:50:45:CE".data, vlan := 1098,
    port := "1/1/24".data, typ := "dynamic".data }

/-- C7 counterexample: a lookup for 70:4C:A5:50:45:CE against a device
whose output repeats one uppercase table line yields two identical entries
whose mac_address is NOT lowercase — the handler lowercases only the
command argument, and never deduplicates entries. -/
theorem mac_lookup_counterexample :
    (handle_mac_lookup defaultPolicy macDupOracle
        { host := "10.0.0.1".data,
          mac_address := some ("70:4C:A5:50:45:CE".data) }).1 =
      .ok { host := "10.0.0.1".data,
            entries := [macDupEntry, macDupEntry],
            total_found := 2,
            commands_executed :=
              ["show mac-learning mac 70:4c:a5:50:45:ce".data] } ∧
    macDupEntry.mac_address ≠ pyLowerStr macDupEntry.mac_address ∧
    ¬([macDupEntry, macDupEntry] : List MacEntryE).Nodup := by
  refine ⟨rfl, by decide, ?_⟩
  intro hnd
  exact (List.nodup_cons.mp hnd).1 (List.mem_singleton.mpr rfl)

/-- C7 (amended): for every aos.mac.lookup call with a truthy mac_address
argument and no ip_address, a successful result ran exactly one command,
`show mac-learning mac ` followed by the argument normalised to lowercase
colon-separated form (no uppercase letter, no dash survives); every
returned entry carries a 17-character MAC in hex-and-colon form exactly as
the device printed it (NOT lowercased) and a type lowercased to dynamic or
static; no deduplication is applied. -/
theorem mac_lookup_spec (pol : CompiledCommandPolicy) (run : RunOracle)
    (args : ArgsMacLookup) (m : List Char) (r : ResultMacLookup)
    (hm : args.mac_address = some m) (hmne : m ≠ [])
    (hip : args.ip_address = none)
    (hok : (handle_mac_lookup pol run args).1 = .ok r) :
    r.commands_executed =
      ["show mac-learning mac ".data ++
        pyLowerStr (pyReplaceChar '-' ':' m)] ∧
    (∀ c ∈ pyLowerStr (pyReplaceChar '-' ':' m),
      ¬(65 ≤ c.toNat ∧ c.toNat ≤ 90) ∧ c ≠ '-') ∧
    (∀ e ∈ r.entries,
      e.mac_address.length = 17 ∧ e.mac_address.all isHexColon = true ∧
      (e.typ = "dynamic".data ∨ e.typ = "static".data)) := by
  have ht1 : optStrTruthy (some m) = true := by
    cases m with
    | nil => exact absurd rfl hmne
    | cons a as => rfl
  have ht2 : optStrTruthy (none : Option (List Char)) = false := rfl
  unfold handle_mac_lookup at hok
  simp only [create_device_from_host, hm, hip, Option.getD_some, ht1, ht2,
    Bool.not_true, Bool.and_false, Bool.false_and, Bool.false_eq_true,
    eq_self_iff_true, if_true, if_false] at hok
  cases hb : macLookupBranch pol run
      ("show mac-learning mac ".data ++
        pyLowerStr (pyReplaceChar '-' ':' m))
      (fun out => (pySplitOn '\n' out).filterMap macLineEntry) with
  | mk res tr =>
    rw [hb] at hok
    cases res with
    | error e =>
      cases hok
    | ok p =>
      obtain ⟨e1, c1⟩ := p
      injection hok with hok'
      subst hok'
      unfold macLookupBranch at hb
      cases hs : sanitize_command
          ("show mac-learning mac ".data ++
            pyLowerStr (pyReplaceChar '-' ':' m)) pol with
      | error msg =>
        rw [hs] at hb
        injection hb with hA hB
        cases hA
      | ok safe =>
        rw [hs] at hb
        simp only at hb
        cases hr : run safe with
        | error msg =>
          rw [hr] at hb
          injection hb with hA hB
          cases hA
        | ok res =>
          rw [hr] at hb
          simp only at hb
          injection hb with hA hB
          injection hA with hA'
          injection hA' with hE hC
          refine ⟨?_, normalized_mac_chars m, ?_⟩
          · rw [← hC]
            simp
          · intro e he
            simp only [← hE, List.append_nil] at he
            rw [List.mem_filterMap] at he
            obtain ⟨a, _, hfa⟩ := he
            exact macLineEntry_shape hfa

/-- Concrete aos.mac.lookup arguments with a dash-separated uppercase MAC. -/
def macWitnessArgs : ArgsMacLookup :=
  { host := "10.0.0.1".data,
    mac_address := some ("70-4C-A5-50-45-CE".data) }

/-- The result of that lookup against an empty-output device. -/
def macWitnessRes : ResultMacLookup :=
  { host := "10.0.0.1".data, entries := [], total_found := 0,
    commands_executed := ["show mac-learning mac 70:4c:a5:50:45:ce".data] }

theorem mac_lookup_spec_witness :
    (handle_mac_lookup defaultPolicy oracleOkEmpty macWitnessArgs).1 =
      .ok macWitnessRes ∧
    macWitnessRes.commands_executed =
      ["show mac-learning mac ".data ++
        pyLowerStr (pyReplaceChar '-' ':' ("70-4C-A5-50-45-CE".data))] :=
  ⟨rfl,
    (mac_lookup_spec defaultPolicy oracleOkEmpty macWitnessArgs
      ("70-4C-A5-50-45-CE".data) macWitnessRes rfl (by decide) rfl rfl).1⟩

/-! ## The parser library: `poe_parse.py`, `interface_parse.py`,
`health_parse.py` -/

/-- Python `str.splitlines()` restricted to LF newlines: no trailing empty
line, and `"".splitlines() == []`. -/
def pySplitLines : List Char → List (List Char)
  | [] => []
  | c :: cs =>
    if c = '\n' then [] :: pySplitLines cs
    else
      match pySplitLines cs with
      | [] => [[c]]
      | t :: ts => (c :: t) :: ts

/-- Decimal rendering of a natural number (Python `str`, used by
f-strings). -/
def natToStrAux : Nat → Nat → List Char
  | 0, _ => []
  | fuel + 1, n =>
    if n < 10 then [Char.ofNat (48 + n)]
    else natToStrAux fuel (n / 10) ++ [Char.ofNat (48 + n % 10)]

def natToStr (n : Nat) : List Char := natToStrAux (n + 1) n

/-- One port dict of `parse_show_lanpower` (poe_parse.py lines 52-61). -/
structure PoePortE where
  port_id : List Char
  max_power_mw : Nat
  actual_used_mw : Nat
  status : List Char
  priority : List Char
  admin_state : List Char
  class_ : Option (List Char)
  type_ : Option (List Char)
  deriving Repr, DecidableEq

/-- The `chassis_summary` dict: each key absent until its line matched. -/
structure ChassisSummaryE where
  chassis_id : Option Nat := none
  slot_id : Option Nat := none
  max_watts : Option Nat := none
  actual_power_consumed_watts : Option Nat := none
  power_budget_remaining_watts : Option Nat := none
  total_power_budget_watts : Option Nat := none
  power_supplies_available : Option Nat := none
  deriving Repr, DecidableEq

/-- The literal alternation `Low|High|Critical` of the port regex. -/
def poePrioAt (s : List Char) : Option (List Char × List Char) :=
  if ("Low".data).isPrefixOf s then some ("Low".data, s.drop 3)
  else if ("High".data).isPrefixOf s then some ("High".data, s.drop 4)
  else if ("Critical".data).isPrefixOf s then some ("Critical".data, s.drop 8)
  else none

/-- The literal alternation `ON|OFF`. -/
def poeOnOffAt (s : List Char) : Option (List Char × List Char) :=
  if ("ON".data).isPrefixOf s then some ("ON".data, s.drop 2)
  else if ("OFF".data).isPrefixOf s then some ("OFF".data, s.drop 3)
  else none

/-- The tail of the port regex after the status group:
`(Low|High|Critical)\s+(ON|OFF)\s+(.?)\s*(.*?)$`.  `s1` starts right after
an inter-token whitespace run. -/
def poeAfterStatus (s1 : List Char) :
    Option (List Char × List Char × Option Char × List Char) :=
  match poePrioAt s1 with
  | none => none
  | some (prio, s2) =>
    match reqWs s2 with
    | none => none
    | some s3 =>
      match poeOnOffAt s3 with
      | none => none
      | some (onoff, s4) =>
        match reqWs s4 with
        | none => none
        | some s5 =>
          match s5 with
          | [] => some (prio, onoff, none, [])
          | c :: cr => some (prio, onoff, some c, cr.dropWhile isPyWs)

/-- The lazy status group `(\S+(?:\s+\S+)*?)` of the port regex: extend the
capture one whitespace-separated token at a time until the rest of the
pattern matches (re's lazy repetition with backtracking degenerates to this
scan because the runs are over disjoint alphabets). -/
def poeStatusLoop : Nat → List Char → List Char →
    Option (List Char × List Char × List Char × Option Char × List Char)
  | 0, _, _ => none
  | fuel + 1, acc, s =>
    match reqWs s with
    | none => none
    | some s1 =>
      match poeAfterStatus s1 with
      | some (prio, onoff, g7, g8) => some (acc, prio, onoff, g7, g8)
      | none =>
        let tok := s1.takeWhile (fun c => !(isPyWs c))
        if tok.isEmpty then none
        else
          poeStatusLoop fuel (acc ++ s.takeWhile isPyWs ++ tok)
            (s1.dropWhile (fun c => !(isPyWs c)))

/-- The anchored port regex of poe_parse.py line 48 applied to the stripped
line, returning the raw captures
(port_id, max digits, actual digits, status, priority, admin, class char,
type text). -/
def poePortLine (s : List Char) :
    Option (List Char × List Char × List Char × List Char × List Char ×
      List Char × Option Char × List Char) :=
  match reqRun isDigitC s with
  | none => none
  | some (a, s1) =>
    match reqChar '/' s1 with
    | none => none
    | some s2 =>
      match reqRun isDigitC s2 with
      | none => none
      | some (b, s3) =>
        match reqChar '/' s3 with
        | none => none
        | some s4 =>
          match reqRun isDigitC s4 with
          | none => none
          | some (c, s5) =>
            match reqWs s5 with
            | none => none
            | some s6 =>
              match reqRun isDigitC s6 with
              | none => none
              | some (maxd, s7) =>
                match reqWs s7 with
                | none => none
                | some s8 =>
                  match reqRun isDigitC s8 with
                  | none => none
                  | some (actd, s9) =>
                    match reqWs s9 with
                    | none => none
                    | some s9w =>
                      match reqRun (fun ch => !(isPyWs ch)) s9w with
                      | none => none
                      | some (tok, s10) =>
                        match poeStatusLoop (s10.length + 1) tok s10 with
                        | none => none
                        | some (g4, prio, onoff, g7, g8) =>
                          some (a ++ '/' :: b ++ '/' :: c, maxd, actd,
                            g4, prio, onoff, g7, g8)

/-- `ChassisId\s+(\d+)\s+Slot\s+(\d+)\s+Max Watts\s+(\d+)` (anchored). -/
def chassisIdMatch (s : List Char) :
    Option (List Char × List Char × List Char) :=
  if ("ChassisId".data).isPrefixOf s then
    match reqWs (s.drop 9) with
    | none => none
    | some s1 =>
      match reqRun isDigitC s1 with
      | none => none
      | some (d1, s2) =>
        match reqWs s2 with
        | none => none
        | some s3 =>
          if ("Slot".data).isPrefixOf s3 then
            match reqWs (s3.drop 4) with
            | none => none
            | some s4 =>
              match reqRun isDigitC s4 with
              | none => none
              | some (d2, s5) =>
                match reqWs s5 with
                | none => none
                | some s6 =>
                  if ("Max Watts".data).isPrefixOf s6 then
                    match reqWs (s6.drop 9) with
                    | none => none
                    | some s7 =>
                      match reqRun isDigitC s7 with
                      | none => none
                      | some (d3, _) => some (d1, d2, d3)
                  else none
          else none
  else none

/-- `(\d+)\s+Watts\s+<tail>` (anchored), as in the three Watts summary
patterns of poe_parse.py. -/
def wattsMatch (tail : List Char) (s : List Char) : Option (List Char) :=
  match reqRun isDigitC s with
  | none => none
  | some (d, s1) =>
    match reqWs s1 with
    | none => none
    | some s2 =>
      if ("Watts".data).isPrefixOf s2 then
        match reqWs (s2.drop 5) with
        | none => none
        | some s3 => if tail.isPrefixOf s3 then some d else none
      else none

/-- `(\d+)\s+Power Supply Available` (anchored). -/
def psaMatch (s : List Char) : Option (List Char) :=
  match reqRun isDigitC s with
  | none => none
  | some (d, s1) =>
    match reqWs s1 with
    | none => none
    | some s2 =>
      if ("Power Supply Available".data).isPrefixOf s2 then some d else none

/-- The port-section block of the loop body (poe_parse.py lines 45-62):
`int()` on the two digit captures can in principle raise, so the step is
`Except`-valued. -/
def poePortStep (inp : Bool) (ports : List PoePortE) (stripped : List Char) :
    Except PyExc (List PoePortE) :=
  if inp && !stripped.isEmpty && !(("Chassis".data).isPrefixOf stripped) then
    match poePortLine stripped with
    | none => .ok ports
    | some (pid, maxd, actd, g4, prio, onoff, g7, g8) =>
      match pyInt maxd with
      | .error e => .error e
      | .ok mx =>
        match pyInt actd with
        | .error e => .error e
        | .ok ac =>
          .ok (ports ++
            [{ port_id := pid, max_power_mw := mx, actual_used_mw := ac,
               status := pyStrip g4, priority := prio, admin_state := onoff,
               class_ :=
                 (match g7 with
                  | some ch => if ch = '_' then none else some [ch]
                  | none => none),
               type_ :=
                 (if (pyStrip g8).isEmpty then none else some (pyStrip g8)) }])
  else .ok ports

/-- The chassis-summary elif chain of the loop body (poe_parse.py lines
65-90). -/
def poeChassisStep (cs : ChassisSummaryE) (stripped : List Char) :
    Except PyExc ChassisSummaryE :=
  if containsSub ("ChassisId".data) stripped then
    match chassisIdMatch stripped with
    | none => .ok cs
    | some (d1, d2, d3) =>
      match pyInt d1 with
      | .error e => .error e
      | .ok n1 =>
        match pyInt d2 with
        | .error e => .error e
        | .ok n2 =>
          match pyInt d3 with
          | .error e => .error e
          | .ok n3 =>
            .ok { cs with chassis_id := some n1, slot_id := some n2,
                          max_watts := some n3 }
  else if containsSub ("Actual Power Consumed".data) stripped then
    match wattsMatch ("Actual Power Consumed".data) stripped with
    | none => .ok cs
    | some d =>
      match pyInt d with
      | .error e => .error e
      | .ok n => .ok { cs with actual_power_consumed_watts := some n }
  else if containsSub ("Actual Power Budget Remaining".data) stripped then
    match wattsMatch ("Actual Power Budget Remaining".data) stripped with
    | none => .ok cs
    | some d =>
      match pyInt d with
      | .error e => .error e
      | .ok n => .ok { cs with power_budget_remaining_watts := some n }
  else if containsSub ("Total Power Budget Available".data) stripped then
    match wattsMatch ("Total Power Budget Available".data) stripped with
    | none => .ok cs
    | some d =>
      match pyInt d with
      | .error e => .error e
      | .ok n => .ok { cs with total_power_budget_watts := some n }
  else if containsSub ("Power Supply Available".data) stripped then
    match psaMatch stripped with
    | none => .ok cs
    | some d =>
      match pyInt d with
      | .error e => .error e
      | .ok n => .ok { cs with power_supplies_available := some n }
  else .ok cs

/-- One iteration of `parse_show_lanpower`'s loop.  `prev` is
`lines[idx - 1]` (absent at idx 0), so the `idx > 0` guard is the `some`
case. -/
def poeLineStep (st : Bool × List PoePortE × ChassisSummaryE)
    (prev : Option (List Char)) (line : List Char) :
    Except PyExc (Bool × List PoePortE × ChassisSummaryE) :=
  let stripped := pyStrip line
  let inp := st.1
  if containsSub ("----".data) line &&
      (match prev with
       | some p => containsSub ("Port".data) p
       | none => false) then
    .ok (true, st.2.1, st.2.2)
  else
    match poePortStep inp st.2.1 stripped with
    | .error e => .error e
    | .ok ports' =>
      match poeChassisStep st.2.2 stripped with
      | .error e => .error e
      | .ok cs' => .ok (inp, ports', cs')

def poeLoop : List (List Char) → Option (List Char) →
    (Bool × List PoePortE × ChassisSummaryE) →
    Except PyExc (List PoePortE × ChassisSummaryE)
  | [], _, st => .ok (st.2.1, st.2.2)
  | l :: ls, prev, st =>
    match poeLineStep st prev l with
    | .error e => .error e
    | .ok st' => poeLoop ls (some l) st'

/-- `parse_show_lanpower` (poe_parse.py lines 21-95). -/
def parse_show_lanpower (output : List Char) :
    Except PyExc (List PoePortE × ChassisSummaryE) :=
  poeLoop (pySplitLines output) none (false, [], {})

/-- One value of the `parse_interfaces_status` dict (interface_parse.py
lines 207-213). -/
structure IfaceEntryE where
  admin_state : List Char
  auto_neg : Bool
  speed : Option (List Char)
  duplex : Option (List Char)
  oper_state : List Char
  deriving Repr, DecidableEq

/-- Python dict assignment `d[k] = v`: replace in place or append. -/
def updAssoc (k : List Char) (v : IfaceEntryE) :
    List (List Char × IfaceEntryE) → List (List Char × IfaceEntryE)
  | [] => [(k, v)]
  | (k', v') :: rest =>
    if k' = k then (k, v) :: rest else (k', v') :: updAssoc k v rest

/-- The anchored data-line regex of interface_parse.py lines 187-194:
`\s*(\d+/\d+/\d+)\s+(\S+)\s+(\S+)\s+(\S+)\s+(\S+)`, returning
(port_id, admin, auto_neg, speed, duplex). -/
def tryIfaceLine (s : List Char) :
    Option (List Char × List Char × List Char × List Char × List Char) :=
  match reqRun isDigitC (s.dropWhile isPyWs) with
  | none => none
  | some (a, s1) =>
    match reqChar '/' s1 with
    | none => none
    | some s2 =>
      match reqRun isDigitC s2 with
      | none => none
      | some (b, s3) =>
        match reqChar '/' s3 with
        | none => none
        | some s4 =>
          match reqRun isDigitC s4 with
          | none => none
          | some (c, s5) =>
            match reqWs s5 with
            | none => none
            | some s6 =>
              match reqRun (fun ch => !(isPyWs ch)) s6 with
              | none => none
              | some (admin, s7) =>
                match reqWs s7 with
                | none => none
                | some s8 =>
                  match reqRun (fun ch => !(isPyWs ch)) s8 with
                  | none => none
                  | some (auto, s9) =>
                    match reqWs s9 with
                    | none => none
                    | some s10 =>
                      match reqRun (fun ch => !(isPyWs ch)) s10 with
                      | none => none
                      | some (speed, s11) =>
                        match reqWs s11 with
                        | none => none
                        | some s12 =>
                          match reqRun (fun ch => !(isPyWs ch)) s12 with
                          | none => none
                          | some (duplex, _) =>
                            some (a ++ '/' :: b ++ '/' :: c,
                              admin, auto, speed, duplex)

/-- The dict value built from the captures (interface_parse.py lines
196-213). -/
def ifaceEntryOf (admin auto speed duplex : List Char) : IfaceEntryE :=
  { admin_state :=
      if admin = "en".data then "enabled".data else "disabled".data,
    auto_neg := auto = "en".data,
    speed :=
      if speed = "-".data then none
      else if !speed.isEmpty && speed.all isDigitC then
        some (speed ++ "Mbps".data)
      else some speed,
    duplex := if duplex = "-".data then none else some duplex,
    oper_state := if speed ≠ "-".data then "up".data else "down".data }

def ifaceLoop : List (List Char) → Bool →
    List (List Char × IfaceEntryE) → List (List Char × IfaceEntryE)
  | [], _, acc => acc
  | l :: ls, inData, acc =>
    if containsSub ("-------".data) l then ifaceLoop ls true acc
    else if !inData then ifaceLoop ls inData acc
    else
      match tryIfaceLine l with
      | none => ifaceLoop ls inData acc
      | some (pid, admin, auto, speed, duplex) =>
        ifaceLoop ls inData
          (updAssoc pid (ifaceEntryOf admin auto speed duplex) acc)

/-- `parse_interfaces_status` (interface_parse.py lines 165-216): a pure
function — it performs no `int()` and no unguarded indexing. -/
def parse_interfaces_status (output : List Char) :
    List (List Char × IfaceEntryE) :=
  ifaceLoop (pySplitOn '\n' (pyStrip output)) false []

/-- One module dict of `parse_show_health`. -/
structure HealthModuleE where
  module_name : List Char
  slot : List Char
  status : List Char
  cpu_usage_percent : Nat
  memory_usage_percent : Nat
  rx_errors : Nat
  tx_errors : Nat
  deriving Repr, DecidableEq

structure HealthResultE where
  modules : List HealthModuleE
  overall_status : List Char
  issues : List (List Char)
  deriving Repr, DecidableEq

/-- `^CPU\s+(\d+)` — `^` without MULTILINE anchors the search at position
0, so this is a prefix match on the line. -/
def cpuLineMatch (s : List Char) : Option (List Char) :=
  if ("CPU".data).isPrefixOf s then
    match reqWs (s.drop 3) with
    | none => none
    | some s1 =>
      match reqRun isDigitC s1 with
      | none => none
      | some (d, _) => some d
  else none

/-- `^Memory\s+(\d+)`. -/
def memLineMatch (s : List Char) : Option (List Char) :=
  if ("Memory".data).isPrefixOf s then
    match reqWs (s.drop 6) with
    | none => none
    | some s1 =>
      match reqRun isDigitC s1 with
      | none => none
      | some (d, _) => some d
  else none

/-- One line of the OS6860 branch (health_parse.py lines 42-52): both the
CPU and the Memory pattern are tried, each `int()` on a digit capture. -/
def healthCmmStep (c m : Nat) (l : List Char) : Except PyExc (Nat × Nat) :=
  match (match cpuLineMatch l with
         | some d => pyInt d
         | none => .ok c) with
  | .error e => .error e
  | .ok c' =>
    match (match memLineMatch l with
           | some d => pyInt d
           | none => .ok m) with
    | .error e => .error e
    | .ok m' => .ok (c', m')

def healthCmmLoop : List (List Char) → Nat → Nat → Except PyExc (Nat × Nat)
  | [], c, m => .ok (c, m)
  | l :: ls, c, m =>
    match healthCmmStep c m l with
    | .error e => .error e
    | .ok (c', m') => healthCmmLoop ls c' m'

/-- The status alternation `OK|WARNING|CRITICAL|DOWN`. -/
def healthStatusAt (s : List Char) : Option (List Char × List Char) :=
  if ("OK".data).isPrefixOf s then some ("OK".data, s.drop 2)
  else if ("WARNING".data).isPrefixOf s then some ("WARNING".data, s.drop 7)
  else if ("CRITICAL".data).isPrefixOf s then
    some ("CRITICAL".data, s.drop 8)
  else if ("DOWN".data).isPrefixOf s then some ("DOWN".data, s.drop 4)
  else none

/-- The optional `/?\d*` tail of the slot group `(\d+/?\d*)`: consume a
slash and a digit run when present. -/
def healthSlotSplit (d1 s3 : List Char) : List Char × List Char :=
  match s3 with
  | '/' :: r => (d1 ++ '/' :: r.takeWhile isDigitC, r.dropWhile isDigitC)
  | _ => (d1, s3)

/-- The AOS8 module pattern
`(\w+)\s+(\d+/?\d*)\s+(OK|WARNING|CRITICAL|DOWN)\s+(\d+)\s+(\d+)\s+(\d+)\s+(\d+)`
matched at the head of `s`, returning
(name, slot, status, cpu, memory, rx, tx digit captures). -/
def tryHealthAt (s : List Char) :
    Option (List Char × List Char × List Char × List Char × List Char ×
      List Char × List Char) :=
  match reqRun isWordC s with
  | none => none
  | some (name, s1) =>
    match reqWs s1 with
    | none => none
    | some s2 =>
      match reqRun isDigitC s2 with
      | none => none
      | some (d1, s3) =>
        let slotRest := healthSlotSplit d1 s3
        match reqWs slotRest.2 with
        | none => none
        | some s4 =>
          match healthStatusAt s4 with
          | none => none
          | some (status, s5) =>
            match reqWs s5 with
            | none => none
            | some s6 =>
              match reqRun isDigitC s6 with
              | none => none
              | some (cpu, s7) =>
                match reqWs s7 with
                | none => none
                | some s8 =>
                  match reqRun isDigitC s8 with
                  | none => none
                  | some (mem, s9) =>
                    match reqWs s9 with
                    | none => none
                    | some s10 =>
                      match reqRun isDigitC s10 with
                      | none => none
                      | some (rx, s11) =>
                        match reqWs s11 with
                        | none => none
                        | some s12 =>
                          match reqRun isDigitC s12 with
                          | none => none
                          | some (tx, _) =>
                            some (name, slotRest.1, status, cpu, mem,
                              rx, tx)

/-- One line of the AOS8 branch (health_parse.py lines 76-103). -/
def healthAos8Step
    (st : List HealthModuleE × List Char × List (List Char))
    (l : List Char) :
    Except PyExc (List HealthModuleE × List Char × List (List Char)) :=
  match reSearch tryHealthAt l with
  | none => .ok st
  | some (name, slot, status, cpu, mem, rx, tx) =>
    match pyInt cpu with
    | .error e => .error e
    | .ok ncpu =>
      match pyInt mem with
      | .error e => .error e
      | .ok nmem =>
        match pyInt rx with
        | .error e => .error e
        | .ok nrx =>
          match pyInt tx with
          | .error e => .error e
          | .ok ntx =>
            let md : HealthModuleE :=
              { module_name := name, slot := slot, status := status,
                cpu_usage_percent := ncpu, memory_usage_percent := nmem,
                rx_errors := nrx, tx_errors := ntx }
            let bad := status = "WARNING".data ∨ status = "CRITICAL".data ∨
              status = "DOWN".data
            let ov' := if bad then status else st.2.1
            let is1 := if bad then
                st.2.2 ++ [name ++ " slot ".data ++ slot ++
                  " status: ".data ++ status]
              else st.2.2
            let is2 := if 80 < ncpu then
                is1 ++ [name ++ " slot ".data ++ slot ++
                  " CPU usage high: ".data ++ cpu ++ "%".data]
              else is1
            let is3 := if 85 < nmem then
                is2 ++ [name ++ " slot ".data ++ slot ++
                  " memory usage high: ".data ++ mem ++ "%".data]
              else is2
            .ok (st.1 ++ [md], ov', is3)

def healthAos8Loop : List (List Char) →
    (List HealthModuleE × List Char × List (List Char)) →
    Except PyExc (List HealthModuleE × List Char × List (List Char))
  | [], st => .ok st
  | l :: ls, st =>
    match healthAos8Step st l with
    | .error e => .error e
    | .ok st' => healthAos8Loop ls st'

/-- The result assembly of the OS6860 branch (health_parse.py lines
54-72). -/
def healthCmmResult (c m : Nat) : HealthResultE :=
  let cmm : HealthModuleE :=
    { module_name := "CMM".data, slot := "1".data, status := "OK".data,
      cpu_usage_percent := c, memory_usage_percent := m,
      rx_errors := 0, tx_errors := 0 }
  if 0 < c ∨ 0 < m then
    { modules := [cmm],
      overall_status :=
        if 80 < c ∨ 85 < m then "WARNING".data else "OK".data,
      issues :=
        (if 80 < c then
          ["CMM CPU usage high: ".data ++ natToStr c ++ "%".data]
         else []) ++
        (if 85 < m then
          ["CMM memory usage high: ".data ++ natToStr m ++ "%".data]
         else []) }
  else { modules := [], overall_status := "OK".data, issues := [] }

/-- `parse_show_health` (health_parse.py lines 19-104). -/
def parse_show_health (output : List Char) : Except PyExc HealthResultE :=
  let lines := pySplitOn '\n' (pyStrip output)
  if containsSub ("Resources".data) output &&
      containsSub ("Current".data) output then
    match healthCmmLoop lines 0 0 with
    | .error e => .error e
    | .ok (c, m) => .ok (healthCmmResult c m)
  else
    match healthAos8Loop lines ([], "OK".data, []) with
    | .error e => .error e
    | .ok (mods, ov, iss) =>
      .ok { modules := mods, overall_status := ov, issues := iss }

/-- What every `(\d+)` capture satisfies: nonempty and all digits — the
shape on which `int()` cannot raise. -/
def digitTok (d : List Char) : Prop :=
  d ≠ [] ∧ d.all isDigitC = true

theorem reqRun_digitTok {s d t : List Char}
    (h : reqRun isDigitC s = some (d, t)) : digitTok d := by
  obtain ⟨hcap, _, hne⟩ := reqRun_some h
  refine ⟨hne, ?_⟩
  subst hcap
  rw [List.all_eq_true]
  intro a ha
  exact List.mem_takeWhile_imp ha

theorem pyInt_of_digitTok {d : List Char} (h : digitTok d) :
    pyInt d = .ok (natValue d) := by
  unfold pyInt
  rw [if_pos]
  simp [h.1, h.2]

theorem wattsMatch_ints {tail s d : List Char}
    (h : wattsMatch tail s = some d) : digitTok d := by
  unfold wattsMatch at h
  cases h1 : reqRun isDigitC s with
  | none => rw [h1] at h; cases h
  | some p =>
    obtain ⟨d', s1⟩ := p
    rw [h1] at h
    simp only at h
    cases h2 : reqWs s1 with
    | none => rw [h2] at h; cases h
    | some s2 =>
      rw [h2] at h
      simp only at h
      split at h
      · cases h3 : reqWs (s2.drop 5) with
        | none => rw [h3] at h; cases h
        | some s3 =>
          rw [h3] at h
          simp only at h
          split at h
          · injection h with h'
            subst h'
            exact reqRun_digitTok h1
          · cases h
      · cases h

theorem psaMatch_ints {s d : List Char} (h : psaMatch s = some d) :
    digitTok d := by
  unfold psaMatch at h
  cases h1 : reqRun isDigitC s with
  | none => rw [h1] at h; cases h
  | some p =>
    obtain ⟨d', s1⟩ := p
    rw [h1] at h
    simp only at h
    cases h2 : reqWs s1 with
    | none => rw [h2] at h; cases h
    | some s2 =>
      rw [h2] at h
      simp only at h
      split at h
      · injection h with h'
        subst h'
        exact reqRun_digitTok h1
      · cases h

theorem chassisIdMatch_ints {s d1 d2 d3 : List Char}
    (h : chassisIdMatch s = some (d1, d2, d3)) :
    digitTok d1 ∧ digitTok d2 ∧ digitTok d3 := by
  unfold chassisIdMatch at h
  split at h
  · cases h1 : reqWs (s.drop 9) with
    | none => rw [h1] at h; cases h
    | some s1 =>
      rw [h1] at h
      simp only at h
      cases h2 : reqRun isDigitC s1 with
      | none => rw [h2] at h; cases h
      | some p2 =>
        obtain ⟨e1, s2⟩ := p2
        rw [h2] at h
        simp only at h
        cases h3 : reqWs s2 with
        | none => rw [h3] at h; cases h
        | some s3 =>
          rw [h3] at h
          simp only at h
          split at h
          · cases h4 : reqWs (s3.drop 4) with
            | none => rw [h4] at h; cases h
            | some s4 =>
              rw [h4] at h
              simp only at h
              cases h5 : reqRun isDigitC s4 with
              | none => rw [h5] at h; cases h
              | some p5 =>
                obtain ⟨e2, s5⟩ := p5
                rw [h5] at h
                simp only at h
                cases h6 : reqWs s5 with
                | none => rw [h6] at h; cases h
                | some s6 =>
                  rw [h6] at h
                  simp only at h
                  split at h
                  · cases h7 : reqWs (s6.drop 9) with
                    | none => rw [h7] at h; cases h
                    | some s7 =>
                      rw [h7] at h
                      simp only at h
                      cases h8 : reqRun isDigitC s7 with
                      | none => rw [h8] at h; cases h
                      | some p8 =>
                        obtain ⟨e3, s8⟩ := p8
                        rw [h8] at h
                        simp only at h
                        injection h with h'
                        injection h' with hA h'
                        injection h' with hB hC
                        subst hA hB hC
                        exact ⟨reqRun_digitTok h2, reqRun_digitTok h5,
                          reqRun_digitTok h8⟩
                  · cases h
          · cases h
  · cases h

theorem cpuLineMatch_ints {s d : List Char} (h : cpuLineMatch s = some d) :
    digitTok d := by
  unfold cpuLineMatch at h
  split at h
  · cases h1 : reqWs (s.drop 3) with
    | none => rw [h1] at h; cases h
    | some s1 =>
      rw [h1] at h
      simp only at h
      cases h2 : reqRun isDigitC s1 with
      | none => rw [h2] at h; cases h
      | some p =>
        obtain ⟨d', s2⟩ := p
        rw [h2] at h
        simp only at h
        injection h with h'
        subst h'
        exact reqRun_digitTok h2
  · cases h

theorem poePortLine_ints {s : List Char}
    {pid maxd actd g4 prio onoff : List Char} {g7 : Option Char}
    {g8 : List Char}
    (h : poePortLine s = some (pid, maxd, actd, g4, prio, onoff, g7, g8)) :
    digitTok maxd ∧ digitTok actd := by
  unfold poePortLine at h
  cases h1 : reqRun isDigitC s with
  | none => rw [h1] at h; cases h
  | some p1 =>
    obtain ⟨a, s1⟩ := p1
    rw [h1] at h
    simp only at h
    cases h2 : reqChar '/' s1 with
    | none => rw [h2] at h; cases h
    | some s2 =>
      rw [h2] at h
      simp only at h
      cases h3 : reqRun isDigitC s2 with
      | none => rw [h3] at h; cases h
      | some p3 =>
        obtain ⟨b, s3⟩ := p3
        rw [h3] at h
        simp only at h
        cases h4 : reqChar '/' s3 with
        | none => rw [h4] at h; cases h
        | some s4 =>
          rw [h4] at h
          simp only at h
          cases h5 : reqRun isDigitC s4 with
          | none => rw [h5] at h; cases h
          | some p5 =>
            obtain ⟨c, s5⟩ := p5
            rw [h5] at h
            simp only at h
            cases h6 : reqWs s5 with
            | none => rw [h6] at h; cases h
            | some s6 =>
              rw [h6] at h
              simp only at h
              cases h7 : reqRun isDigitC s6 with
              | none => rw [h7] at h; cases h
              | some p7 =>
                obtain ⟨maxd', s7⟩ := p7
                rw [h7] at h
                simp only at h
                cases h8 : reqWs s7 with
                | none => rw [h8] at h; cases h
                | some s8 =>
                  rw [h8] at h
                  simp only at h
                  cases h9 : reqRun isDigitC s8 with
                  | none => rw [h9] at h; cases h
                  | some p9 =>
                    obtain ⟨actd', s9⟩ := p9
                    rw [h9] at h
                    simp only at h
                    cases h9w : reqWs s9 with
                    | none => rw [h9w] at h; cases h
                    | some s9w =>
                      rw [h9w] at h
                      simp only at h
                      cases h10 : reqRun (fun ch => !(isPyWs ch)) s9w with
                      | none => rw [h10] at h; cases h
                      | some p10 =>
                        obtain ⟨tok, s10⟩ := p10
                        rw [h10] at h
                        simp only at h
                        cases h11 : poeStatusLoop (s10.length + 1) tok s10 with
                        | none => rw [h11] at h; cases h
                        | some p11 =>
                          obtain ⟨g4', prio', onoff', g7', g8'⟩ := p11
                          rw [h11] at h
                          simp only at h
                          injection h with h'
                          injection h' with hA h'
                          injection h' with hB h'
                          subst hB
                          injection h' with hC h'
                          subst hC
                          exact ⟨reqRun_digitTok h7, reqRun_digitTok h9⟩

theorem tryHealthAt_ints {s : List Char}
    {name slot status cpu mem rx tx : List Char}
    (h : tryHealthAt s = some (name, slot, status, cpu, mem, rx, tx)) :
    digitTok cpu ∧ digitTok mem ∧ digitTok rx ∧ digitTok tx := by
  unfold tryHealthAt at h
  cases h1 : reqRun isWordC s with
  | none => rw [h1] at h; cases h
  | some p1 =>
    obtain ⟨name', s1⟩ := p1
    rw [h1] at h
    simp only at h
    cases h2 : reqWs s1 with
    | none => rw [h2] at h; cases h
    | some s2 =>
      rw [h2] at h
      simp only at h
      cases h3 : reqRun isDigitC s2 with
      | none => rw [h3] at h; cases h
      | some p3 =>
        obtain ⟨d1, s3⟩ := p3
        rw [h3] at h
        simp only at h
        cases h4 : reqWs (healthSlotSplit d1 s3).2 with
        | none => rw [h4] at h; cases h
        | some s4 =>
          rw [h4] at h
          simp only at h
          cases h5 : healthStatusAt s4 with
          | none => rw [h5] at h; cases h
          | some p5 =>
            obtain ⟨status', s5⟩ := p5
            rw [h5] at h
            simp only at h
            cases h6 : reqWs s5 with
            | none => rw [h6] at h; cases h
            | some s6 =>
              rw [h6] at h
              simp only at h
              cases h7 : reqRun isDigitC s6 with
              | none => rw [h7] at h; cases h
              | some p7 =>
                obtain ⟨cpu', s7⟩ := p7
                rw [h7] at h
                simp only at h
                cases h8 : reqWs s7 with
                | none => rw [h8] at h; cases h
                | some s8 =>
                  rw [h8] at h
                  simp only at h
                  cases h9 : reqRun isDigitC s8 with
                  | none => rw [h9] at h; cases h
                  | some p9 =>
                    obtain ⟨mem', s9⟩ := p9
                    rw [h9] at h
                    simp only at h
                    cases h10 : reqWs s9 with
                    | none => rw [h10] at h; cases h
                    | some s10 =>
                      rw [h10] at h
                      simp only at h
                      cases h11 : reqRun isDigitC s10 with
                      | none => rw [h11] at h; cases h
                      | some p11 =>
                        obtain ⟨rx', s11⟩ := p11
                        rw [h11] at h
                        simp only at h
                        cases h12 : reqWs s11 with
                        | none => rw [h12] at h; cases h
                        | some s12 =>
                          rw [h12] at h
                          simp only at h
                          cases h13 : reqRun isDigitC s12 with
                          | none => rw [h13] at h; cases h
                          | some p13 =>
                            obtain ⟨tx', s13⟩ := p13
                            rw [h13] at h
                            simp only at h
                            injection h with h'
                            injection h' with hA h'
                            injection h' with hB h'
                            injection h' with hC h'
                            injection h' with hD h'
                            subst hD
                            injection h' with hE h'
                            subst hE
                            injection h' with hF hG
                            subst hF hG
                            exact ⟨reqRun_digitTok h7, reqRun_digitTok h9,
                              reqRun_digitTok h11, reqRun_digitTok h13⟩

theorem memLineMatch_ints {s d : List Char} (h : memLineMatch s = some d) :
    digitTok d := by
  unfold memLineMatch at h
  split at h
  · cases h1 : reqWs (s.drop 6) with
    | none => rw [h1] at h; cases h
    | some s1 =>
      rw [h1] at h
      simp only at h
      cases h2 : reqRun isDigitC s1 with
      | none => rw [h2] at h; cases h
      | some p =>
        obtain ⟨d', s2⟩ := p
        rw [h2] at h
        simp only at h
        injection h with h'
        subst h'
        exact reqRun_digitTok h2
  · cases h

theorem poePortStep_ok (inp : Bool) (ports : List PoePortE)
    (stripped : List Char) :
    ∃ out, poePortStep inp ports stripped = .ok out := by
  unfold poePortStep
  split
  · cases hp : poePortLine stripped with
    | none => exact ⟨ports, rfl⟩
    | some p =>
      obtain ⟨pid, maxd, actd, g4, prio, onoff, g7, g8⟩ := p
      obtain ⟨hmx, hac⟩ := poePortLine_ints hp
      simp only
      rw [pyInt_of_digitTok hmx, pyInt_of_digitTok hac]
      exact ⟨_, rfl⟩
  · exact ⟨ports, rfl⟩

theorem poeChassisStep_ok (cs : ChassisSummaryE) (stripped : List Char) :
    ∃ out, poeChassisStep cs stripped = .ok out := by
  unfold poeChassisStep
  split
  · cases hm : chassisIdMatch stripped with
    | none => exact ⟨cs, rfl⟩
    | some p =>
      obtain ⟨d1, d2, d3⟩ := p
      obtain ⟨t1, t2, t3⟩ := chassisIdMatch_ints hm
      simp only
      rw [pyInt_of_digitTok t1, pyInt_of_digitTok t2, pyInt_of_digitTok t3]
      exact ⟨_, rfl⟩
  · split
    · cases hm : wattsMatch ("Actual Power Consumed".data) stripped with
      | none => exact ⟨cs, rfl⟩
      | some d =>
        simp only
        rw [pyInt_of_digitTok (wattsMatch_ints hm)]
        exact ⟨_, rfl⟩
    · split
      · cases hm : wattsMatch ("Actual Power Budget Remaining".data)
            stripped with
        | none => exact ⟨cs, rfl⟩
        | some d =>
          simp only
          rw [pyInt_of_digitTok (wattsMatch_ints hm)]
          exact ⟨_, rfl⟩
      · split
        · cases hm : wattsMatch ("Total Power Budget Available".data)
              stripped with
          | none => exact ⟨cs, rfl⟩
          | some d =>
            simp only
            rw [pyInt_of_digitTok (wattsMatch_ints hm)]
            exact ⟨_, rfl⟩
        · split
          · cases hm : psaMatch stripped with
            | none => exact ⟨cs, rfl⟩
            | some d =>
              simp only
              rw [pyInt_of_digitTok (psaMatch_ints hm)]
              exact ⟨_, rfl⟩
          · exact ⟨cs, rfl⟩

theorem poeLineStep_ok (st : Bool × List PoePortE × ChassisSummaryE)
    (prev : Option (List Char)) (l : List Char) :
    ∃ st', poeLineStep st prev l = .ok st' := by
  obtain ⟨inp, ports, cs⟩ := st
  unfold poeLineStep
  split
  · exact ⟨_, rfl⟩
  · obtain ⟨ports', hp⟩ := poePortStep_ok inp ports (pyStrip l)
    obtain ⟨cs', hc⟩ := poeChassisStep_ok cs (pyStrip l)
    simp only
    rw [hp]
    simp only
    rw [hc]
    exact ⟨_, rfl⟩

theorem poeLoop_ok : ∀ (ls : List (List Char)) (prev : Option (List Char))
    (st : Bool × List PoePortE × ChassisSummaryE),
    ∃ r, poeLoop ls prev st = .ok r := by
  intro ls
  induction ls with
  | nil => exact fun prev st => ⟨_, rfl⟩
  | cons l ls ih =>
    intro prev st
    obtain ⟨st', hs⟩ := poeLineStep_ok st prev l
    obtain ⟨r, hr⟩ := ih (some l) st'
    exact ⟨r, by unfold poeLoop; rw [hs]; exact hr⟩

theorem healthCmmStep_ok (c m : Nat) (l : List Char) :
    ∃ r, healthCmmStep c m l = .ok r := by
  have hcv : (match cpuLineMatch l with
              | some d => pyInt d
              | none => .ok c) =
      .ok (match cpuLineMatch l with
           | some d => natValue d
           | none => c) := by
    cases hc : cpuLineMatch l with
    | none => rfl
    | some d => exact pyInt_of_digitTok (cpuLineMatch_ints hc)
  have hmv : (match memLineMatch l with
              | some d => pyInt d
              | none => .ok m) =
      .ok (match memLineMatch l with
           | some d => natValue d
           | none => m) := by
    cases hc : memLineMatch l with
    | none => rfl
    | some d => exact pyInt_of_digitTok (memLineMatch_ints hc)
  exact ⟨_, by unfold healthCmmStep; rw [hcv, hmv]⟩

theorem healthCmmLoop_ok : ∀ (ls : List (List Char)) (c m : Nat),
    ∃ r, healthCmmLoop ls c m = .ok r := by
  intro ls
  induction ls with
  | nil => exact fun c m => ⟨_, rfl⟩
  | cons l ls ih =>
    intro c m
    obtain ⟨⟨c', m'⟩, hs⟩ := healthCmmStep_ok c m l
    obtain ⟨r, hr⟩ := ih c' m'
    exact ⟨r, by unfold healthCmmLoop; rw [hs]; exact hr⟩

theorem healthAos8Step_ok
    (st : List HealthModuleE × List Char × List (List Char))
    (l : List Char) : ∃ r, healthAos8Step st l = .ok r := by
  unfold healthAos8Step
  cases hm : reSearch tryHealthAt l with
  | none => exact ⟨st, rfl⟩
  | some p =>
    obtain ⟨name, slot, status, cpu, mem, rx, tx⟩ := p
    obtain ⟨t0, _, hft⟩ := reSearch_some hm
    obtain ⟨t1, t2, t3, t4⟩ := tryHealthAt_ints hft
    simp only
    rw [pyInt_of_digitTok t1, pyInt_of_digitTok t2,
      pyInt_of_digitTok t3, pyInt_of_digitTok t4]
    exact ⟨_, rfl⟩

theorem healthAos8Loop_ok : ∀ (ls : List (List Char))
    (st : List HealthModuleE × List Char × List (List Char)),
    ∃ r, healthAos8Loop ls st = .ok r := by
  intro ls
  induction ls with
  | nil => exact fun st => ⟨_, rfl⟩
  | cons l ls ih =>
    intro st
    obtain ⟨st', hs⟩ := healthAos8Step_ok st l
    obtain ⟨r, hr⟩ := ih st'
    exact ⟨r, by unfold healthAos8Loop; rw [hs]; exact hr⟩

theorem parse_show_lanpower_total (t : List Char) :
    ∃ r, parse_show_lanpower t = .ok r :=
  poeLoop_ok _ _ _

theorem parse_show_health_total (t : List Char) :
    ∃ r, parse_show_health t = .ok r := by
  unfold parse_show_health
  dsimp only
  split
  · obtain ⟨⟨c, m⟩, hl⟩ := healthCmmLoop_ok (pySplitOn '\n' (pyStrip t)) 0 0
    exact ⟨_, by rw [hl]⟩
  · obtain ⟨⟨mods, ov, iss⟩, hl⟩ :=
      healthAos8Loop_ok (pySplitOn '\n' (pyStrip t)) ([], "OK".data, [])
    exact ⟨_, by rw [hl]⟩

/-- C4: every parser of the parser library is total — on every input text
(empty, garbage, or wrong-firmware-shaped) `parse_show_lanpower` and
`parse_show_health` return ok (their `int()` calls are applied only to
nonempty all-digit regex captures, and the one backward index is guarded
by `idx > 0`), `parse_interfaces_status` is a pure function with no
fallible operation, and on empty input each parser returns the default
record: no ports and an empty chassis summary, no modules with overall
status OK and no issues, and an empty interface map. -/
theorem parser_totality (t : List Char) :
    (∃ r, parse_show_lanpower t = .ok r) ∧
    (∃ h, parse_show_health t = .ok h) ∧
    parse_show_lanpower [] = .ok ([], ({} : ChassisSummaryE)) ∧
    parse_show_health [] =
      .ok { modules := [], overall_status := "OK".data, issues := [] } ∧
    parse_interfaces_status [] = [] :=
  ⟨parse_show_lanpower_total t, parse_show_health_total t, rfl, rfl, rfl⟩

end AOS
